import Mathlib

/-!
Verification development for the declaration parser in
`src/lib/Parse/ParseDecl.cpp` (a Swift-language front end).

The parser's token-level behaviour is shallowly embedded: tokens are an
inductive type, the parser state is threaded explicitly as a token list,
diagnostics are accumulated in a list, and each `Parser::parse…` member
function of the source becomes a Lean function of the same name.  Peer
subsystems that are not part of `src/` (expression, pattern, type and
brace-item parsing, and skip utilities from `Parser.cpp`) are passed in as
explicit function parameters ("oracles"), exactly as the source invokes
them as black boxes.
-/

namespace SwiftParse

/-- Segment kinds of a string literal, per `Lexer::StringSegment`. -/
inductive SegKind
  | literal
  | expr
deriving DecidableEq, Repr

/-- One segment of a string-literal token. -/
structure StringSegment where
  kind : SegKind
  content : String
deriving DecidableEq, Repr

/-- Token kinds used by the declaration parser (subset of `tok`). -/
inductive Tok
  | at_sign
  | comma
  | equal
  | period
  | colon
  | semi
  | arrow
  | l_brace
  | r_brace
  | l_paren
  | r_paren
  | exclaimPost
  | identifier (text : String)
  | oper (text : String)
  | integer_literal (val : Nat)
  | floating_literal
  | string_literal (segments : List StringSegment)
  | kw_in
  | kw_weak
  | kw_unowned
  | kw_import
  | kw_typealias
  | kw_struct
  | kw_class
  | kw_enum
  | kw_protocol
  | kw_var
  | kw_func
  | kw_static
  | kw_init
  | kw_case
  | kw_destructor
  | kw_extension
  | kw_subscript
  | kw_return
  | eof
deriving DecidableEq, Repr

/-- Diagnostic kinds emitted by the modelled code paths (from `diag::…`). -/
inductive DiagKind
  | expectedAttributeName
  | unknownAttribute
  | typeAttributeAppliedToDecl
  | declAttributeAppliedToType
  | duplicateAttribute
  | cannotCombineAttribute
  | asmnameExpectedEquals
  | asmnameExpectedStringLiteral
  | asmnameInterpolatedString
  | onlyAllowedInSil
  | ccAttributeExpectedName
  | ccAttributeExpectedRparen
  | ccAttributeExpectedLparen
  | ccAttributeUnknownCcName
  | expectedInAttributeList
  | expectedIdentifierInDecl
  | importAttributes
  | declInnerScope
  | declExpectedModuleName
  | expectedColonGet
  | expectedColonSet
  | expectedSetname
  | expectedRparenSetname
  | duplicateGetset
  | previousGetset
  | getsetNontrivialPattern
  | getsetMissingType
  | expectedRbraceInGetset
  | varSetWithoutGet
  | expectedOperatorAttribute
  | unknownPreOperatorAttribute
  | unknownPostOperatorAttribute
  | operatorAssociativityRedeclared
  | operatorPrecedenceRedeclared
  | expectedInfOperatorAssociativity
  | unknownInfOperatorAssociativity
  | expectedInfOperatorPrecedence
  | invalidInfOperatorPrecedence
  | unknownInfOperatorAttribute
  | expectedOperatorNameAfterOperator
  | customOperatorPostExclaim
  | expectedLbraceAfterOperator
  | operatorAttributes
  | operatorDeclInnerScope
  | expectedLbraceExtension
  | expectedRbraceExtension
  | destructorParameterNonemptyTuple
  | expectedLparenDestructor
  | expectedLbraceDestructor
  | destructorDeclOutsideClass
  | expectedLbraceProtocol
  | expectedLbraceEnum
  | expectedLbraceStruct
  | expectedLbraceClass
  | disallowedType
deriving DecidableEq, Repr

/-! String constants for attribute and contextual-keyword spellings. -/

def sIn : String := "in"
def sWeak : String := "weak"
def sUnowned : String := "unowned"
def sAsmname : String := "asmname"
def sInfixT : String := "infix"
def sUnary : String := "unary"
def sStdlib : String := "stdlib"
def sNoreturn : String := "noreturn"
def sOptional : String := "optional"
def sResilient : String := "resilient"
def sFragile : String := "fragile"
def sBornFragile : String := "born_fragile"
def sPreT : String := "prefix"
def sPostT : String := "postfix"
def sExported : String := "exported"
def sInout : String := "inout"
def sAutoClosure : String := "auto_closure"
def sCc : String := "cc"
def sLocalStorage : String := "local_storage"
def sSilSelf : String := "sil_self"
def sSilWeak : String := "sil_weak"
def sSilUnowned : String := "sil_unowned"
def sFreestanding : String := "freestanding"
def sMethod : String := "method"
def sCdecl : String := "cdecl"
def sObjcMethod : String := "objc_method"
def sOperator : String := "operator"
def sAssociativity : String := "associativity"
def sPrecedence : String := "precedence"
def sNone : String := "none"
def sLeft : String := "left"
def sRight : String := "right"
def sGet : String := "get"
def sSet : String := "set"
def sValue : String := "value"

/-- Declaration-attribute kinds (`AttrKind` / `AK_…`). -/
inductive AttrKind
  | asmname
  | infixA
  | unary
  | stdlib
  | weak
  | unowned
  | noreturn
  | optionalA
  | resilient
  | fragile
  | bornFragile
  | preA
  | postA
  | exported
deriving DecidableEq, Repr

/-- Type-attribute kinds (`TypeAttrKind` / `TAK_…`). -/
inductive TypeAttrKind
  | noreturn
  | inout
  | autoClosure
  | cc
  | localStorage
  | silSelf
  | silWeak
  | silUnowned
deriving DecidableEq, Repr

/-- Calling-convention tags (`AbstractCC`). -/
inductive AbstractCC
  | freestanding
  | method
  | c
  | objcMethod
deriving DecidableEq, Repr

/-- Modelled from the spec: the declaration-attribute name table expanded
from `swift/AST/Attr.def`, which is not under `src/`; the names are those
listed in spec section 3 (plus `stdlib` from the grammar comment in the
source).  This is the `llvm::StringSwitch` in `Parser::parseDeclAttribute`. -/
def declAttrOfText (t : String) : Option AttrKind :=
  if t = sAsmname then some AttrKind.asmname
  else if t = sInfixT then some AttrKind.infixA
  else if t = sUnary then some AttrKind.unary
  else if t = sStdlib then some AttrKind.stdlib
  else if t = sWeak then some AttrKind.weak
  else if t = sUnowned then some AttrKind.unowned
  else if t = sNoreturn then some AttrKind.noreturn
  else if t = sOptional then some AttrKind.optionalA
  else if t = sResilient then some AttrKind.resilient
  else if t = sFragile then some AttrKind.fragile
  else if t = sBornFragile then some AttrKind.bornFragile
  else if t = sPreT then some AttrKind.preA
  else if t = sPostT then some AttrKind.postA
  else if t = sExported then some AttrKind.exported
  else none

/-- Modelled from the spec: the type-attribute name table expanded from
`swift/AST/Attr.def` (not under `src/`); this is the `llvm::StringSwitch`
in `Parser::parseTypeAttribute`. -/
def typeAttrOfText (t : String) : Option TypeAttrKind :=
  if t = sNoreturn then some TypeAttrKind.noreturn
  else if t = sInout then some TypeAttrKind.inout
  else if t = sAutoClosure then some TypeAttrKind.autoClosure
  else if t = sCc then some TypeAttrKind.cc
  else if t = sLocalStorage then some TypeAttrKind.localStorage
  else if t = sSilSelf then some TypeAttrKind.silSelf
  else if t = sSilWeak then some TypeAttrKind.silWeak
  else if t = sSilUnowned then some TypeAttrKind.silUnowned
  else none

/-- The `cc` name table in `Parser::parseTypeAttribute`. -/
def ccOfName (t : String) : Option AbstractCC :=
  if t = sFreestanding then some AbstractCC.freestanding
  else if t = sMethod then some AbstractCC.method
  else if t = sCdecl then some AbstractCC.c
  else if t = sObjcMethod then some AbstractCC.objcMethod
  else none

/-- Declaration attribute set (`DeclAttributes`): one presence bit per
attribute, plus the `asmname` payload.  Modelled from the spec's data model
("per attribute: presence bit + declaration location"); locations are not
tracked. -/
structure DeclAttributes where
  asmnameSet : Bool := false
  infixSet : Bool := false
  unarySet : Bool := false
  stdlibSet : Bool := false
  weak : Bool := false
  unowned : Bool := false
  noreturnSet : Bool := false
  optionalSet : Bool := false
  resilient : Bool := false
  fragile : Bool := false
  bornFragile : Bool := false
  fixityPre : Bool := false
  fixityPost : Bool := false
  exportedSet : Bool := false
  asmName : Option String := none
deriving DecidableEq, Repr

instance : Inhabited DeclAttributes := ⟨{}⟩

def DeclAttributes.has (a : DeclAttributes) : AttrKind → Bool
  | AttrKind.asmname => a.asmnameSet
  | AttrKind.infixA => a.infixSet
  | AttrKind.unary => a.unarySet
  | AttrKind.stdlib => a.stdlibSet
  | AttrKind.weak => a.weak
  | AttrKind.unowned => a.unowned
  | AttrKind.noreturn => a.noreturnSet
  | AttrKind.optionalA => a.optionalSet
  | AttrKind.resilient => a.resilient
  | AttrKind.fragile => a.fragile
  | AttrKind.bornFragile => a.bornFragile
  | AttrKind.preA => a.fixityPre
  | AttrKind.postA => a.fixityPost
  | AttrKind.exported => a.exportedSet

def DeclAttributes.setAttr (a : DeclAttributes) : AttrKind → DeclAttributes
  | AttrKind.asmname => { a with asmnameSet := true }
  | AttrKind.infixA => { a with infixSet := true }
  | AttrKind.unary => { a with unarySet := true }
  | AttrKind.stdlib => { a with stdlibSet := true }
  | AttrKind.weak => { a with weak := true }
  | AttrKind.unowned => { a with unowned := true }
  | AttrKind.noreturn => { a with noreturnSet := true }
  | AttrKind.optionalA => { a with optionalSet := true }
  | AttrKind.resilient => { a with resilient := true }
  | AttrKind.fragile => { a with fragile := true }
  | AttrKind.bornFragile => { a with bornFragile := true }
  | AttrKind.preA => { a with fixityPre := true }
  | AttrKind.postA => { a with fixityPost := true }
  | AttrKind.exported => { a with exportedSet := true }

def DeclAttributes.clearAttr (a : DeclAttributes) : AttrKind → DeclAttributes
  | AttrKind.asmname => { a with asmnameSet := false }
  | AttrKind.infixA => { a with infixSet := false }
  | AttrKind.unary => { a with unarySet := false }
  | AttrKind.stdlib => { a with stdlibSet := false }
  | AttrKind.weak => { a with weak := false }
  | AttrKind.unowned => { a with unowned := false }
  | AttrKind.noreturn => { a with noreturnSet := false }
  | AttrKind.optionalA => { a with optionalSet := false }
  | AttrKind.resilient => { a with resilient := false }
  | AttrKind.fragile => { a with fragile := false }
  | AttrKind.bornFragile => { a with bornFragile := false }
  | AttrKind.preA => { a with fixityPre := false }
  | AttrKind.postA => { a with fixityPost := false }
  | AttrKind.exported => { a with exportedSet := false }

/-- `DeclAttributes::hasOwnership`: an ownership attribute is present. -/
def DeclAttributes.hasOwnership (a : DeclAttributes) : Bool :=
  a.weak || a.unowned

/-- `getResilienceKind() == Resilience::Default` holds iff no resilience
attribute is present. -/
def DeclAttributes.resilienceIsDefault (a : DeclAttributes) : Bool :=
  !(a.resilient || a.fragile || a.bornFragile)

/-- `DeclAttributes::empty()`: no presence bit is set. -/
def DeclAttributes.isEmpty (a : DeclAttributes) : Bool :=
  !(a.asmnameSet || a.infixSet || a.unarySet || a.stdlibSet || a.weak ||
    a.unowned || a.noreturnSet || a.optionalSet || a.resilient || a.fragile ||
    a.bornFragile || a.fixityPre || a.fixityPost || a.exportedSet)

/-- `DeclAttributes::isExported()`. -/
def DeclAttributes.isExported (a : DeclAttributes) : Bool :=
  a.exportedSet

/-- Type attribute set (`TypeAttributes`), presence bits plus the `cc`
payload. -/
structure TypeAttributes where
  noreturnSet : Bool := false
  inoutSet : Bool := false
  autoClosureSet : Bool := false
  ccSet : Bool := false
  localStorageSet : Bool := false
  silSelfSet : Bool := false
  silWeak : Bool := false
  silUnowned : Bool := false
  cc : Option AbstractCC := none
deriving DecidableEq, Repr

instance : Inhabited TypeAttributes := ⟨{}⟩

def TypeAttributes.has (a : TypeAttributes) : TypeAttrKind → Bool
  | TypeAttrKind.noreturn => a.noreturnSet
  | TypeAttrKind.inout => a.inoutSet
  | TypeAttrKind.autoClosure => a.autoClosureSet
  | TypeAttrKind.cc => a.ccSet
  | TypeAttrKind.localStorage => a.localStorageSet
  | TypeAttrKind.silSelf => a.silSelfSet
  | TypeAttrKind.silWeak => a.silWeak
  | TypeAttrKind.silUnowned => a.silUnowned

def TypeAttributes.setAttr (a : TypeAttributes) : TypeAttrKind → TypeAttributes
  | TypeAttrKind.noreturn => { a with noreturnSet := true }
  | TypeAttrKind.inout => { a with inoutSet := true }
  | TypeAttrKind.autoClosure => { a with autoClosureSet := true }
  | TypeAttrKind.cc => { a with ccSet := true }
  | TypeAttrKind.localStorage => { a with localStorageSet := true }
  | TypeAttrKind.silSelf => { a with silSelfSet := true }
  | TypeAttrKind.silWeak => { a with silWeak := true }
  | TypeAttrKind.silUnowned => { a with silUnowned := true }

def TypeAttributes.clearAttr (a : TypeAttributes) : TypeAttrKind → TypeAttributes
  | TypeAttrKind.noreturn => { a with noreturnSet := false }
  | TypeAttrKind.inout => { a with inoutSet := false }
  | TypeAttrKind.autoClosure => { a with autoClosureSet := false }
  | TypeAttrKind.cc => { a with ccSet := false }
  | TypeAttrKind.localStorage => { a with localStorageSet := false }
  | TypeAttrKind.silSelf => { a with silSelfSet := false }
  | TypeAttrKind.silWeak => { a with silWeak := false }
  | TypeAttrKind.silUnowned => { a with silUnowned := false }

/-- `TypeAttributes::hasOwnership`: a SIL ownership attribute is present. -/
def TypeAttributes.hasOwnership (a : TypeAttributes) : Bool :=
  a.silWeak || a.silUnowned

/-- Text of a token acceptable as a declaration-attribute name; mirrors the
leading kind test in `Parser::parseDeclAttribute` (identifier, `in`,
`weak`, `unowned`). -/
def attrTokenText : Tok → Option String
  | Tok.identifier t => some t
  | Tok.kw_in => some sIn
  | Tok.kw_weak => some sWeak
  | Tok.kw_unowned => some sUnowned
  | _ => none

/-- Text of a token acceptable as a type-attribute name; mirrors the
leading kind test in `Parser::parseTypeAttribute` (identifier, `in`). -/
def typeAttrTokenText : Tok → Option String
  | Tok.identifier t => some t
  | Tok.kw_in => some sIn
  | _ => none

/-- A token that is an identifier, integer literal or floating literal
(the `@foo=bar` recovery in both attribute parsers). -/
def isIdIntFloat : Tok → Bool
  | Tok.identifier _ => true
  | Tok.integer_literal _ => true
  | Tok.floating_literal => true
  | _ => false

/-- Result of parsing one attribute or an attribute list: the Boolean error
status returned by the source function, the updated attribute set, the
remaining tokens and the emitted diagnostics. -/
structure AttrOut (α : Type) where
  error : Bool
  attrs : α
  toks : List Tok
  diags : List DiagKind
deriving Repr

/-- Skip of `@foo=bar` after an unknown attribute name (shared recovery code
in both attribute parsers): the name token was already consumed; consume
`=` if present, and after it one identifier / integer / float token. -/
def skipEqValue (rest : List Tok) : List Tok :=
  match rest with
  | Tok.equal :: tail =>
    match tail with
    | v :: tail2 => if isIdIntFloat v then tail2 else v :: tail2
    | [] => []
  | _ => rest

/-- `Parser::parseDeclAttribute` (ParseDecl.cpp lines 125-248): parse one
declaration attribute whose `@` has already been consumed; `toks` starts at
the attribute name. -/
def parseDeclAttribute (attrs : DeclAttributes) (toks : List Tok) :
    AttrOut DeclAttributes :=
  match toks with
  | [] => ⟨true, attrs, [], [DiagKind.expectedAttributeName]⟩
  | t :: rest =>
    match attrTokenText t with
    | none => ⟨true, attrs, t :: rest, [DiagKind.expectedAttributeName]⟩
    | some text =>
      match declAttrOfText text with
      | none =>
        let d := if (typeAttrOfText text).isSome then
            DiagKind.typeAttributeAppliedToDecl
          else DiagKind.unknownAttribute
        ⟨true, attrs, skipEqValue rest, [d]⟩
      | some ak =>
        let dup := attrs.has ak
        let attrs1 := if dup then attrs else attrs.setAttr ak
        let dupDiags : List DiagKind :=
          if dup then [DiagKind.duplicateAttribute] else []
        match ak with
        | AttrKind.weak | AttrKind.unowned =>
          let a2 := attrs1.clearAttr ak
          if a2.hasOwnership then
            ⟨false, a2, rest, dupDiags ++ [DiagKind.duplicateAttribute]⟩
          else
            ⟨false, a2.setAttr ak, rest, dupDiags⟩
        | AttrKind.resilient | AttrKind.fragile | AttrKind.bornFragile =>
          let a2 := attrs1.clearAttr ak
          if a2.resilienceIsDefault then
            ⟨false, a2.setAttr ak, rest, dupDiags⟩
          else
            ⟨false, a2, rest, dupDiags ++ [DiagKind.duplicateAttribute]⟩
        | AttrKind.preA =>
          if attrs1.fixityPost then
            ⟨false, attrs1.clearAttr AttrKind.preA, rest,
              dupDiags ++ [DiagKind.cannotCombineAttribute]⟩
          else
            ⟨false, attrs1, rest, dupDiags⟩
        | AttrKind.postA =>
          if attrs1.fixityPre then
            ⟨false, attrs1.clearAttr AttrKind.postA, rest,
              dupDiags ++ [DiagKind.cannotCombineAttribute]⟩
          else
            ⟨false, attrs1, rest, dupDiags⟩
        | AttrKind.asmname =>
          match rest with
          | Tok.equal :: rest2 =>
            match rest2 with
            | Tok.string_literal segs :: rest3 =>
              match segs with
              | [seg] =>
                if seg.kind = SegKind.expr then
                  ⟨false, attrs1.clearAttr AttrKind.asmname, rest3,
                    dupDiags ++ [DiagKind.asmnameInterpolatedString]⟩
                else
                  ⟨false, { attrs1 with asmName := some seg.content }, rest3,
                    dupDiags⟩
              | _ =>
                ⟨false, attrs1.clearAttr AttrKind.asmname, rest3,
                  dupDiags ++ [DiagKind.asmnameInterpolatedString]⟩
            | _ =>
              ⟨false, attrs1.clearAttr AttrKind.asmname, rest2,
                dupDiags ++ [DiagKind.asmnameExpectedStringLiteral]⟩
          | _ =>
            ⟨false, attrs1.clearAttr AttrKind.asmname, rest,
              dupDiags ++ [DiagKind.asmnameExpectedEquals]⟩
        | _ => ⟨false, attrs1, rest, dupDiags⟩

/-- `Parser::parseTypeAttribute` (ParseDecl.cpp lines 255-386): parse one
type attribute whose `@` has already been consumed.  `consumeIfNotAtStartOfLine`
for the `cc` attribute is modelled as a plain conditional consume (line-start
information is not tracked). -/
def parseTypeAttribute (silMode : Bool) (attrs : TypeAttributes)
    (toks : List Tok) : AttrOut TypeAttributes :=
  match toks with
  | [] => ⟨true, attrs, [], [DiagKind.expectedAttributeName]⟩
  | t :: rest =>
    match typeAttrTokenText t with
    | none => ⟨true, attrs, t :: rest, [DiagKind.expectedAttributeName]⟩
    | some text =>
      match typeAttrOfText text with
      | none =>
        let d := if (declAttrOfText text).isSome then
            DiagKind.declAttributeAppliedToType
          else DiagKind.unknownAttribute
        ⟨true, attrs, skipEqValue rest, [d]⟩
      | some ak =>
        let dup := attrs.has ak
        let attrs1 := if dup then attrs else attrs.setAttr ak
        let dupDiags : List DiagKind :=
          if dup then [DiagKind.duplicateAttribute] else []
        match ak with
        | TypeAttrKind.localStorage | TypeAttrKind.silSelf =>
          if silMode then
            ⟨false, attrs1, rest, dupDiags⟩
          else
            ⟨false, attrs1.clearAttr ak, rest,
              dupDiags ++ [DiagKind.onlyAllowedInSil]⟩
        | TypeAttrKind.silWeak | TypeAttrKind.silUnowned =>
          let a2 := attrs1.clearAttr ak
          if !silMode then
            ⟨false, a2, rest, dupDiags ++ [DiagKind.onlyAllowedInSil]⟩
          else if a2.hasOwnership then
            ⟨false, a2, rest, dupDiags ++ [DiagKind.duplicateAttribute]⟩
          else
            ⟨false, a2.setAttr ak, rest, dupDiags⟩
        | TypeAttrKind.inout =>
          if attrs1.autoClosureSet then
            ⟨false, attrs1.clearAttr TypeAttrKind.inout, rest,
              dupDiags ++ [DiagKind.cannotCombineAttribute]⟩
          else
            ⟨false, attrs1, rest, dupDiags⟩
        | TypeAttrKind.autoClosure =>
          if attrs1.inoutSet then
            ⟨false, attrs1.clearAttr TypeAttrKind.autoClosure, rest,
              dupDiags ++ [DiagKind.cannotCombineAttribute]⟩
          else
            ⟨false, attrs1, rest, dupDiags⟩
        | TypeAttrKind.cc =>
          match rest with
          | Tok.l_paren :: rest2 =>
            match rest2 with
            | Tok.identifier nm :: rest3 =>
              let rp : List Tok × List DiagKind :=
                match rest3 with
                | Tok.r_paren :: r => (r, [])
                | _ => (rest3, [DiagKind.ccAttributeExpectedRparen])
              match ccOfName nm with
              | some cv =>
                ⟨false, { attrs1 with cc := some cv }, rp.1, dupDiags ++ rp.2⟩
              | none =>
                ⟨false, attrs1.clearAttr TypeAttrKind.cc, rp.1,
                  dupDiags ++ rp.2 ++ [DiagKind.ccAttributeUnknownCcName]⟩
            | Tok.r_paren :: rest3 =>
              ⟨false, attrs1, rest3,
                dupDiags ++ [DiagKind.ccAttributeExpectedName]⟩
            | _ =>
              ⟨false, attrs1, rest2,
                dupDiags ++ [DiagKind.ccAttributeExpectedName,
                             DiagKind.ccAttributeExpectedRparen]⟩
          | _ =>
            ⟨false, attrs1, rest, dupDiags ++ [DiagKind.ccAttributeExpectedLparen]⟩
        | _ => ⟨false, attrs1, rest, dupDiags⟩

/-- `Parser::parseDeclAttributeListPresent` (ParseDecl.cpp lines 401-412),
with explicit fuel; each successful iteration consumes at least two tokens,
so `toks.length + 1` fuel is always sufficient. -/
def parseDeclAttrListAux (fuel : Nat) (attrs : DeclAttributes)
    (toks : List Tok) (diags : List DiagKind) : AttrOut DeclAttributes :=
  match fuel with
  | 0 => ⟨true, attrs, toks, diags⟩
  | fuel + 1 =>
    match toks with
    | Tok.at_sign :: rest =>
      let r := parseDeclAttribute attrs rest
      if r.error then ⟨true, r.attrs, r.toks, diags ++ r.diags⟩
      else
        match r.toks with
        | Tok.at_sign :: _ =>
          parseDeclAttrListAux fuel r.attrs r.toks (diags ++ r.diags)
        | Tok.comma :: rest2 =>
          parseDeclAttrListAux fuel r.attrs rest2 (diags ++ r.diags)
        | _ => ⟨false, r.attrs, r.toks, diags ++ r.diags⟩
    | _ => ⟨true, attrs, toks, diags ++ [DiagKind.expectedInAttributeList]⟩

/-- Entry point for a present declaration-attribute list. -/
def parseDeclAttributeListPresent (attrs : DeclAttributes)
    (toks : List Tok) : AttrOut DeclAttributes :=
  parseDeclAttrListAux (toks.length + 1) attrs toks []

/-- `Parser::parseTypeAttributeListPresent` (ParseDecl.cpp lines 426-437),
with explicit fuel. -/
def parseTypeAttrListAux (silMode : Bool) (fuel : Nat) (attrs : TypeAttributes)
    (toks : List Tok) (diags : List DiagKind) : AttrOut TypeAttributes :=
  match fuel with
  | 0 => ⟨true, attrs, toks, diags⟩
  | fuel + 1 =>
    match toks with
    | Tok.at_sign :: rest =>
      let r := parseTypeAttribute silMode attrs rest
      if r.error then ⟨true, r.attrs, r.toks, diags ++ r.diags⟩
      else
        match r.toks with
        | Tok.at_sign :: _ =>
          parseTypeAttrListAux silMode fuel r.attrs r.toks (diags ++ r.diags)
        | Tok.comma :: rest2 =>
          parseTypeAttrListAux silMode fuel r.attrs rest2 (diags ++ r.diags)
        | _ => ⟨false, r.attrs, r.toks, diags ++ r.diags⟩
    | _ => ⟨true, attrs, toks, diags ++ [DiagKind.expectedInAttributeList]⟩

/-- Entry point for a present type-attribute list. -/
def parseTypeAttributeListPresent (silMode : Bool) (attrs : TypeAttributes)
    (toks : List Tok) : AttrOut TypeAttributes :=
  parseTypeAttrListAux silMode (toks.length + 1) attrs toks []

/-! ## Import declarations -/

/-- The per-parse flag bits (`PD_…`) needed by the modelled sub-parsers. -/
structure PDFlags where
  allowTopLevel : Bool := false
  hasContainerType : Bool := false
  allowDestructor : Bool := false
deriving DecidableEq, Repr

/-- `ImportKind` of an import declaration. -/
inductive ImportKind
  | module
  | typeK
  | structK
  | classK
  | enumK
  | protocolK
  | varK
  | funcK
deriving DecidableEq, Repr

/-- `ImportDecl`: kind, dotted path and exported bit. -/
structure ImportDecl where
  kind : ImportKind
  path : List String
  exported : Bool
deriving DecidableEq, Repr

/-- Result of a sub-parser returning a single optional declaration node. -/
structure DeclOut (α : Type) where
  decl : Option α
  toks : List Tok
  diags : List DiagKind
deriving Repr

/-- A token is a keyword (`Token::isKeyword`). -/
def isKeywordTok : Tok → Bool
  | Tok.kw_in | Tok.kw_weak | Tok.kw_unowned | Tok.kw_import
  | Tok.kw_typealias | Tok.kw_struct | Tok.kw_class | Tok.kw_enum
  | Tok.kw_protocol | Tok.kw_var | Tok.kw_func | Tok.kw_static
  | Tok.kw_init | Tok.kw_case | Tok.kw_destructor | Tok.kw_extension
  | Tok.kw_subscript | Tok.kw_return => true
  | _ => false

/-- Modelled from the spec: `Parser::parseAnyIdentifier` (declared outside
`src/`); per the grammar comment, an `any-identifier` is an identifier or
an operator token. -/
def anyIdentText : Tok → Option String
  | Tok.identifier t => some t
  | Tok.oper t => some t
  | _ => none

/-- The `import-path` loop of `Parser::parseDeclImport` (lines 739-745):
a dotted sequence of any-identifiers. -/
def parseImportPath (toks : List Tok) :
    Option (List String) × List Tok × List DiagKind :=
  match toks with
  | [] => (none, [], [DiagKind.expectedIdentifierInDecl])
  | t :: rest =>
    match anyIdentText t with
    | none => (none, t :: rest, [DiagKind.expectedIdentifierInDecl])
    | some s =>
      match rest with
      | Tok.period :: rest2 =>
        let r := parseImportPath rest2
        (r.1.map (fun p => s :: p), r.2.1, r.2.2)
      | _ => (some [s], rest, [])

/-- The import-kind keyword dispatch in `Parser::parseDeclImport`
(lines 709-737). -/
def importKindOfTok : Tok → Option ImportKind
  | Tok.kw_typealias => some ImportKind.typeK
  | Tok.kw_struct => some ImportKind.structK
  | Tok.kw_class => some ImportKind.classK
  | Tok.kw_enum => some ImportKind.enumK
  | Tok.kw_protocol => some ImportKind.protocolK
  | Tok.kw_var => some ImportKind.varK
  | Tok.kw_func => some ImportKind.funcK
  | _ => none

/-- `Parser::parseDeclImport` (ParseDecl.cpp lines 693-754). -/
def parseDeclImport (flags : PDFlags) (attrs : DeclAttributes)
    (toks : List Tok) : DeclOut ImportDecl :=
  match toks with
  | Tok.kw_import :: rest =>
    let exported := attrs.isExported
    let attrs1 := attrs.clearAttr AttrKind.exported
    let d0 : List DiagKind :=
      if attrs1.isEmpty then [] else [DiagKind.importAttributes]
    if !flags.allowTopLevel then
      ⟨none, rest, d0 ++ [DiagKind.declInnerScope]⟩
    else
      let kd : Option ImportKind × List Tok × List DiagKind :=
        match rest with
        | t :: rest2 =>
          if isKeywordTok t then
            match importKindOfTok t with
            | some k => (some k, rest2, [])
            | none => (none, t :: rest2, [DiagKind.expectedIdentifierInDecl])
          else (some ImportKind.module, t :: rest2, [])
        | [] => (some ImportKind.module, [], [])
      match kd.1 with
      | none => ⟨none, kd.2.1, d0 ++ kd.2.2⟩
      | some kind =>
        let pp := parseImportPath kd.2.1
        match pp.1 with
        | none => ⟨none, pp.2.1, d0 ++ kd.2.2 ++ pp.2.2⟩
        | some path =>
          if kind ≠ ImportKind.module ∧ path.length = 1 then
            ⟨none, pp.2.1, d0 ++ pp.2.2 ++ [DiagKind.declExpectedModuleName]⟩
          else
            ⟨some ⟨kind, path, exported⟩, pp.2.1, d0 ++ pp.2.2⟩
  | _ => ⟨none, toks, []⟩

/-! ## Operator declarations -/

/-- Operator associativity. -/
inductive Associativity
  | none
  | left
  | right
deriving DecidableEq, Repr

/-- `InfixData`: precedence and associativity of an infix operator. -/
structure InfixData where
  precedence : Nat
  assoc : Associativity
deriving DecidableEq, Repr

/-- The three operator declaration forms (`PrefixOperatorDecl`,
`PostfixOperatorDecl`, `InfixOperatorDecl`). -/
inductive OperatorDecl
  | preOp (name : String)
  | postOp (name : String)
  | infOp (name : String) (data : InfixData)
deriving DecidableEq, Repr

/-- Operator fixity selected by the contextual keyword after `operator`. -/
inductive OpFixity
  | preF
  | postF
  | infF
deriving DecidableEq, Repr

def opFixityOfText (t : String) : Option OpFixity :=
  if t = sPreT then some OpFixity.preF
  else if t = sPostT then some OpFixity.postF
  else if t = sInfixT then some OpFixity.infF
  else none

/-- The associativity name table in `Parser::parseDeclInfixOperator`. -/
def assocOfName (t : String) : Option Associativity :=
  if t = sNone then some Associativity.none
  else if t = sLeft then some Associativity.left
  else if t = sRight then some Associativity.right
  else none

/-- The attribute loop of `Parser::parseDeclInfixOperator` (ParseDecl.cpp
lines 2747-2807), with explicit fuel.  `skipDR` is the peer utility
`Parser::skipUntilDeclRBrace` (not under `src/`), passed as an oracle.
On reaching `r_brace` the declaration is produced and the brace is left
unconsumed (the caller consumes it). -/
def parseInfOpLoop (skipDR : List Tok → List Tok) (name : String)
    (fuel : Nat) (precedence : Nat) (assoc : Associativity)
    (assocSeen precSeen : Bool) (toks : List Tok) (diags : List DiagKind) :
    DeclOut OperatorDecl :=
  match fuel with
  | 0 => ⟨none, toks, diags⟩
  | fuel + 1 =>
    match toks with
    | Tok.r_brace :: rest =>
      ⟨some (OperatorDecl.infOp name ⟨precedence, assoc⟩),
        Tok.r_brace :: rest, diags⟩
    | Tok.identifier t :: rest =>
      if t = sAssociativity then
        if assocSeen then
          ⟨none, skipDR (Tok.identifier t :: rest),
            diags ++ [DiagKind.operatorAssociativityRedeclared]⟩
        else
          match rest with
          | Tok.identifier v :: rest2 =>
            match assocOfName v with
            | some a =>
              parseInfOpLoop skipDR name fuel precedence a true precSeen
                rest2 diags
            | none =>
              ⟨none, skipDR (Tok.identifier v :: rest2),
                diags ++ [DiagKind.unknownInfOperatorAssociativity]⟩
          | other =>
            ⟨none, skipDR other,
              diags ++ [DiagKind.expectedInfOperatorAssociativity]⟩
      else if t = sPrecedence then
        if precSeen then
          ⟨none, skipDR (Tok.identifier t :: rest),
            diags ++ [DiagKind.operatorPrecedenceRedeclared]⟩
        else
          match rest with
          | Tok.integer_literal v :: rest2 =>
            if v ≤ 255 then
              parseInfOpLoop skipDR name fuel v assoc assocSeen true
                rest2 diags
            else
              parseInfOpLoop skipDR name fuel 255 assoc assocSeen true
                rest2 (diags ++ [DiagKind.invalidInfOperatorPrecedence])
          | other =>
            ⟨none, skipDR other,
              diags ++ [DiagKind.expectedInfOperatorPrecedence]⟩
      else
        ⟨none, skipDR (Tok.identifier t :: rest),
          diags ++ [DiagKind.unknownInfOperatorAttribute]⟩
    | other => ⟨none, skipDR other, diags ++ [DiagKind.expectedOperatorAttribute]⟩

/-- `Parser::parseDeclInfixOperator` (ParseDecl.cpp lines 2734-2815):
`toks` starts at the `{` of the operator body; defaults are precedence 100
and associativity none. -/
def parseDeclInfixOperator (skipDR : List Tok → List Tok) (name : String)
    (toks : List Tok) : DeclOut OperatorDecl :=
  match toks with
  | Tok.l_brace :: rest =>
    parseInfOpLoop skipDR name (rest.length + 1) 100 Associativity.none
      false false rest []
  | _ => ⟨none, toks, []⟩

/-- `Parser::parseDeclPrefixOperator` (ParseDecl.cpp lines 2690-2709):
the body must be empty; any content diagnoses and fails. -/
def parseDeclPreOperator (skipDR : List Tok → List Tok) (name : String)
    (toks : List Tok) : DeclOut OperatorDecl :=
  match toks with
  | Tok.l_brace :: rest =>
    match rest with
    | Tok.r_brace :: rest2 =>
      ⟨some (OperatorDecl.preOp name), Tok.r_brace :: rest2, []⟩
    | Tok.identifier t :: rest2 =>
      ⟨none, skipDR (Tok.identifier t :: rest2),
        [DiagKind.unknownPreOperatorAttribute]⟩
    | other => ⟨none, skipDR other, [DiagKind.expectedOperatorAttribute]⟩
  | _ => ⟨none, toks, []⟩

/-- `Parser::parseDeclPostfixOperator` (ParseDecl.cpp lines 2712-2732). -/
def parseDeclPostOperator (skipDR : List Tok → List Tok) (name : String)
    (toks : List Tok) : DeclOut OperatorDecl :=
  match toks with
  | Tok.l_brace :: rest =>
    match rest with
    | Tok.r_brace :: rest2 =>
      ⟨some (OperatorDecl.postOp name), Tok.r_brace :: rest2, []⟩
    | Tok.identifier t :: rest2 =>
      ⟨none, skipDR (Tok.identifier t :: rest2),
        [DiagKind.unknownPostOperatorAttribute]⟩
    | other => ⟨none, skipDR other, [DiagKind.expectedOperatorAttribute]⟩
  | _ => ⟨none, toks, []⟩

/-- The operator-name token (any operator token, or postfix `!`). -/
def operatorNameText : Tok → Option String
  | Tok.oper t => some t
  | Tok.exclaimPost => some "!"
  | _ => none

/-- `Parser::parseDeclOperator` (ParseDecl.cpp lines 2624-2687): dispatch
to the fixity-specific body parser; after the body, consume a `}` if
present; a non-top-level operator declaration is diagnosed and dropped
(`return nullptr`). -/
def parseDeclOperator (skipDR : List Tok → List Tok) (allowTopLevel : Bool)
    (attrs : DeclAttributes) (toks : List Tok) : DeclOut OperatorDecl :=
  match toks with
  | Tok.identifier opkw :: Tok.identifier fixT :: rest =>
    if opkw = sOperator then
      let d0 : List DiagKind :=
        if attrs.isEmpty then [] else [DiagKind.operatorAttributes]
      match opFixityOfText fixT with
      | none => ⟨none, rest, d0⟩
      | some fix =>
        match rest with
        | nameTok :: rest2 =>
          match operatorNameText nameTok with
          | none =>
            ⟨none, nameTok :: rest2,
              d0 ++ [DiagKind.expectedOperatorNameAfterOperator]⟩
          | some name =>
            let d1 : List DiagKind :=
              if fix = OpFixity.postF ∧ name = "!" then
                d0 ++ [DiagKind.customOperatorPostExclaim]
              else d0
            match rest2 with
            | Tok.l_brace :: rest3 =>
              let body :=
                match fix with
                | OpFixity.preF =>
                  parseDeclPreOperator skipDR name (Tok.l_brace :: rest3)
                | OpFixity.postF =>
                  parseDeclPostOperator skipDR name (Tok.l_brace :: rest3)
                | OpFixity.infF =>
                  parseDeclInfixOperator skipDR name (Tok.l_brace :: rest3)
              let toks4 :=
                match body.toks with
                | Tok.r_brace :: r => r
                | other => other
              if allowTopLevel then
                ⟨body.decl, toks4, d1 ++ body.diags⟩
              else
                ⟨none, toks4,
                  d1 ++ body.diags ++ [DiagKind.operatorDeclInnerScope]⟩
            | other =>
              ⟨none, other, d1 ++ [DiagKind.expectedLbraceAfterOperator]⟩
        | [] => ⟨none, [], d0 ++ [DiagKind.expectedOperatorNameAfterOperator]⟩
    else ⟨none, toks, []⟩
  | _ => ⟨none, toks, []⟩

/-! ## Accessor blocks (computed variables and subscripts)

Token positions are tracked as indices (`pos`): every consumed token
advances the position by one, so `Nat` order coincides with
`SourceMgr::isBeforeInBuffer` on the locations of this stream. -/

/-- One parsed accessor (the getter or setter `FuncDecl`): its `FuncLoc`,
the position where its body began, its attributes, and (for setters) the
parameter name with its implicit flag. -/
structure AccessorInfo where
  funcLoc : Nat
  bodyStart : Nat
  attrs : DeclAttributes
  setName : Option String
  setNameImplicit : Bool
deriving DecidableEq, Repr

/-- Output of `Parser::parseGetSet`: the `Invalid` flag, the getter and
setter, the final position, remaining tokens, and diagnostics. -/
structure GetSetOut where
  invalid : Bool
  getA : Option AccessorInfo
  setA : Option AccessorInfo
  pos : Nat
  toks : List Tok
  diags : List DiagKind
deriving Repr

/-- `Token::isContextualKeyword`: an identifier with the given text. -/
def isCtxKw (t : Tok) (s : String) : Bool :=
  match t with
  | Tok.identifier x => x = s
  | _ => false

/-- `Parser::skipUntil` on a token list: stop at one of `stops` or at
end of file. -/
def skipUntilToks (stops : List Tok) : List Tok → List Tok
  | [] => []
  | t :: rest =>
    if stops.contains t || t = Tok.eof then t :: rest
    else skipUntilToks stops rest

/-- The clause loop of `Parser::parseGetSet` (ParseDecl.cpp lines
1101-1313), with explicit fuel.  `pbi` is the peer brace-item parser
(`parseBraceItems` with `BraceItemListKind::Variable`, not under `src/`),
given the current position and tokens and returning the new ones.
Attribute lists before a clause reuse the modelled attribute parser; the
wrapper `parseDeclAttributeList` (declared outside `src/`) runs the
present-list parser only when the current token is `@`. -/
def parseGetSetLoop (pbi : Nat → List Tok → Nat × List Tok) (fuel : Nat)
    (pos : Nat) (g s : Option AccessorInfo) (toks : List Tok)
    (diags : List DiagKind) : GetSetOut :=
  match fuel with
  | 0 => ⟨true, g, s, pos, toks, diags⟩
  | fuel + 1 =>
    match toks with
    | [] => ⟨true, g, s, pos, [], diags⟩
    | t :: rest =>
      if t = Tok.r_brace then ⟨false, g, s, pos, t :: rest, diags⟩
      else if t = Tok.eof then ⟨true, g, s, pos, t :: rest, diags⟩
      else
        let al : AttrOut DeclAttributes :=
          if t = Tok.at_sign then parseDeclAttributeListPresent {} (t :: rest)
          else ⟨false, {}, t :: rest, []⟩
        let pos1 := pos + ((t :: rest).length - al.toks.length)
        let diags1 := diags ++ al.diags
        match al.toks with
        | [] => ⟨true, g, s, pos1, [], diags1⟩
        | t1 :: rest1 =>
          if isCtxKw t1 sGet || !(isCtxKw t1 sSet) then
            let dDup : List DiagKind :=
              if g.isSome then
                [DiagKind.duplicateGetset, DiagKind.previousGetset]
              else []
            let diags2 := diags1 ++ dDup
            if isCtxKw t1 sGet then
              match rest1 with
              | Tok.colon :: rest2 =>
                let pr := pbi (pos1 + 2) rest2
                parseGetSetLoop pbi fuel pr.1
                  (some ⟨pos1, pos1 + 2, al.attrs, none, false⟩) s pr.2 diags2
              | _ =>
                ⟨true, none, s, pos1 + 1, rest1,
                  diags2 ++ [DiagKind.expectedColonGet]⟩
            else
              let pr := pbi pos1 (t1 :: rest1)
              parseGetSetLoop pbi fuel pr.1
                (some ⟨pos1, pos1, al.attrs, none, false⟩) s pr.2 diags2
          else
            let dDup : List DiagKind :=
              if s.isSome then
                [DiagKind.duplicateGetset, DiagKind.previousGetset]
              else []
            let diags2 := diags1 ++ dDup
            let setLoc := pos1
            let nm : Option String × List Tok × List DiagKind :=
              match rest1 with
              | Tok.l_paren :: rest2 =>
                match rest2 with
                | Tok.identifier n :: rest3 =>
                  match rest3 with
                  | Tok.r_paren :: rest4 => (some n, rest4, [])
                  | _ => (some n, rest3, [DiagKind.expectedRparenSetname])
                | _ =>
                  let skipped := skipUntilToks [Tok.r_paren, Tok.l_brace] rest2
                  let rest3 :=
                    match skipped with
                    | Tok.r_paren :: r => r
                    | other => other
                  (none, rest3, [DiagKind.expectedSetname])
              | _ => (none, rest1, [])
            let diags3 := diags2 ++ nm.2.2
            let pos3 := pos1 + ((t1 :: rest1).length - nm.2.1.length)
            match nm.2.1 with
            | Tok.colon :: rest4 =>
              let pr := pbi (pos3 + 1) rest4
              let finalName : Option String :=
                match nm.1 with
                | some n => some n
                | none => some sValue
              parseGetSetLoop pbi fuel pr.1 g
                (some ⟨setLoc, pos3 + 1, al.attrs, finalName, nm.1.isNone⟩)
                pr.2 diags3
            | other =>
              ⟨true, g, none, pos3, other,
                diags3 ++ [DiagKind.expectedColonSet]⟩

/-- Output of `Parser::parseDeclVarGetSet`, restricted to the observable
effect on the primary variable: whether `setComputedAccessors` was called
and with which accessors. -/
structure VarGSOut where
  installed : Bool
  instGet : Option AccessorInfo
  instSet : Option AccessorInfo
  toks : List Tok
  diags : List DiagKind
deriving Repr

/-- `Parser::parseDeclVarGetSet` (ParseDecl.cpp lines 1321-1386).
`patHasName` is whether the pattern has a simple named primary variable,
`patHasType` whether it carries a type annotation; `skipDR` is the peer
utility `skipUntilDeclRBrace`. -/
def parseDeclVarGetSet (pbi : Nat → List Tok → Nat × List Tok)
    (skipDR : List Tok → List Tok) (patHasName patHasType : Bool)
    (pos : Nat) (toks : List Tok) : VarGSOut :=
  let d1 : List DiagKind :=
    if patHasName then [] else [DiagKind.getsetNontrivialPattern]
  let d2 : List DiagKind :=
    if patHasType then []
    else if patHasName then [DiagKind.getsetMissingType] else []
  match toks with
  | Tok.l_brace :: rest =>
    let r := parseGetSetLoop pbi (rest.length + 1) (pos + 1) none none rest []
    let toks2 := if r.invalid then skipDR r.toks else r.toks
    let rb : List Tok × List DiagKind :=
      match toks2 with
      | Tok.r_brace :: rr => (rr, [])
      | other => (other, [DiagKind.expectedRbraceInGetset])
    let sng := r.setA.isSome && r.getA.isNone
    let d4 : List DiagKind :=
      if sng && !r.invalid then [DiagKind.varSetWithoutGet] else []
    let sFinal := if sng then none else r.setA
    let inv2 := r.invalid || sng
    let inst := !inv2 && patHasName && (r.getA.isSome || sFinal.isSome)
    ⟨inst, if inst then r.getA else none, if inst then sFinal else none,
      rb.1, d1 ++ d2 ++ r.diags ++ rb.2 ++ d4⟩
  | _ => ⟨false, none, none, toks, d1 ++ d2⟩

/-- A brace-item parser for witnesses: consume everything up to the next
`}` or end of file. -/
def pbiUntilRBrace : Nat → List Tok → Nat × List Tok
  | pos, [] => (pos, [])
  | pos, t :: rest =>
    if t = Tok.r_brace || t = Tok.eof then (pos, t :: rest)
    else pbiUntilRBrace (pos + 1) rest

/-! ## Source-order emission of accessors -/

/-- An accessor `FuncDecl` as far as ordering is concerned: its `FuncLoc`. -/
structure AccFunc where
  funcLoc : Nat
deriving DecidableEq, Repr

/-- Declarations appended to the output list by the modelled sites. -/
inductive MemberDecl
  | accessor (f : AccFunc)
  | varD
  | subscriptD
deriving DecidableEq, Repr

/-- The accessor-ordering idiom shared by `AddVarsToScope::walkToPatternPost`
(lines 1053-1064) and `Parser::parseDeclSubscript` (lines 2415-2426):
`Accessors[2] = {Get, Set}`, swapped when both exist and the first does not
start before the second, then each non-null entry is pushed. -/
def emitAccessorsInOrder (g s : Option AccFunc) : List AccFunc :=
  match g, s with
  | some gf, some sf =>
    if gf.funcLoc < sf.funcLoc then [gf, sf] else [sf, gf]
  | some gf, none => [gf]
  | none, some sf => [sf]
  | none, none => []

/-- `AddVarsToScope::walkToPatternPost` (ParseDecl.cpp lines 1041-1071),
restricted to the decl-list effect for one named pattern: for a computed
variable the two accessors are appended in source order, then the
`VarDecl` itself. -/
def walkToPatternPostDecls (decls : List MemberDecl) (isComputed : Bool)
    (g s : Option AccFunc) : List MemberDecl :=
  (if isComputed then
    decls ++ (emitAccessorsInOrder g s).map MemberDecl.accessor
  else decls) ++ [MemberDecl.varD]

/-- The success tail of `Parser::parseDeclSubscript` (ParseDecl.cpp lines
2392-2427): push the subscript declaration, then the accessors in source
order. -/
def subscriptDeclsAppend (decls : List MemberDecl) (g s : Option AccFunc) :
    List MemberDecl :=
  (decls ++ [MemberDecl.subscriptD]) ++
    (emitAccessorsInOrder g s).map MemberDecl.accessor

/-! ## Extension declarations -/

/-- `ExtensionDecl` restricted to the modelled observables. -/
structure ExtDecl where
  invalid : Bool
  memberCount : Nat
deriving DecidableEq, Repr

/-- Result of `parseDeclExtension`: optional node, error status, tokens,
diagnostics. -/
structure ExtOut where
  decl : Option ExtDecl
  error : Bool
  toks : List Tok
  diags : List DiagKind
deriving Repr

/-- `Parser::parseDeclExtension` (ParseDecl.cpp lines 868-945).  The peer
subsystems are oracles: `pty` is the extended-type parse (lines 872-889,
`parseTypeIdentifierWithRecovery` plus keyword recovery), `pinh` is
`parseInheritance`'s type parsing, `pmem` is the member list parsed through
the `parseList` utility (members, remaining tokens, error bit,
diagnostics).  Code-completion paths are not modelled.  The declaration is
produced even on a missing `{`; a non-top-level extension is diagnosed and
marked invalid but still returned. -/
def parseDeclExtension
    (pty : List Tok → Option Unit × List Tok × List DiagKind)
    (pinh : List Tok → List Tok × List DiagKind)
    (pmem : List Tok → List MemberDecl × List Tok × Bool × List DiagKind)
    (flags : PDFlags) (toks : List Tok) : ExtOut :=
  match toks with
  | Tok.kw_extension :: rest =>
    match pty rest with
    | (none, t1, ds1) => ⟨none, true, t1, ds1⟩
    | (some _, t1, ds1) =>
      let inh : List Tok × List DiagKind :=
        match t1 with
        | Tok.colon :: _ => pinh t1
        | _ => (t1, [])
      match inh.1 with
      | Tok.l_brace :: rest2 =>
        let m := pmem rest2
        if flags.allowTopLevel then
          ⟨some ⟨false, m.1.length⟩, m.2.2.1, m.2.1, ds1 ++ inh.2 ++ m.2.2.2⟩
        else
          ⟨some ⟨true, m.1.length⟩, true, m.2.1,
            ds1 ++ inh.2 ++ m.2.2.2 ++ [DiagKind.declInnerScope]⟩
      | other =>
        if flags.allowTopLevel then
          ⟨some ⟨false, 0⟩, true, other,
            ds1 ++ inh.2 ++ [DiagKind.expectedLbraceExtension]⟩
        else
          ⟨some ⟨true, 0⟩, true, other,
            ds1 ++ inh.2 ++
              [DiagKind.expectedLbraceExtension, DiagKind.declInnerScope]⟩
  | _ => ⟨none, true, toks, []⟩

/-! ## Destructor declarations -/

/-- The shape of the pattern returned by the peer `parsePatternTuple`:
a tuple with a number of fields, or a parenthesized sub-pattern. -/
inductive ParsedPat
  | tuple (fieldCount : Nat)
  | paren
deriving DecidableEq, Repr

/-- `DestructorDecl` as constructed at ParseDecl.cpp lines 2589-2591: the
constructor receives only the name, the location, the implicit `self`
declaration and the context — no parameter pattern field exists. -/
structure DtorDecl where
  selfImplicit : Bool
  invalid : Bool
  hasBody : Bool
deriving DecidableEq, Repr

/-- `Parser::parseDeclDestructor` (ParseDecl.cpp lines 2530-2622).  `ppt`
is the peer `parsePatternTuple`; `pbi` the peer brace-item list parser for
the body (delayed or eager).  Note the source's inner `Params` (line 2538)
shadows the outer one (line 2534); faithfully, nothing of the parsed
parameter tuple reaches the constructed declaration. -/
def parseDeclDestructor
    (ppt : List Tok → Option ParsedPat × List Tok × List DiagKind)
    (pbi : List Tok → List Tok)
    (silMode : Bool) (flags : PDFlags) (toks : List Tok) : DeclOut DtorDecl :=
  match toks with
  | Tok.kw_destructor :: rest =>
    let par : List Tok × List DiagKind :=
      match rest with
      | Tok.l_paren :: _ =>
        let pr := ppt rest
        match pr.1 with
        | some p =>
          let nonempty :=
            match p with
            | ParsedPat.tuple n => n != 0
            | ParsedPat.paren => true
          (pr.2.1, pr.2.2 ++
            (if nonempty then [DiagKind.destructorParameterNonemptyTuple]
             else []))
        | none => (pr.2.1, pr.2.2)
      | _ => (rest, [DiagKind.expectedLparenDestructor])
    match par.1 with
    | Tok.l_brace :: bodyToks =>
      let t2 := pbi (Tok.l_brace :: bodyToks)
      ⟨some ⟨true, !flags.allowDestructor, true⟩, t2,
        par.2 ++
          (if flags.allowDestructor then []
           else [DiagKind.destructorDeclOutsideClass])⟩
    | other =>
      if silMode then
        ⟨some ⟨true, !flags.allowDestructor, false⟩, other,
          par.2 ++
            (if flags.allowDestructor then []
             else [DiagKind.destructorDeclOutsideClass])⟩
      else
        ⟨none, other, par.2 ++ [DiagKind.expectedLbraceDestructor]⟩
  | _ => ⟨none, toks, []⟩

/-! ## Protocol and nominal type declarations -/

/-- `Token::getText` for the modelled keyword tokens (`Token::isKeyword`
together with the spelling), used by the keyword-recovery path of
`parseIdentifierDeclName`. -/
def tokKeywordText : Tok → Option String
  | Tok.kw_in => some sIn
  | Tok.kw_weak => some sWeak
  | Tok.kw_unowned => some sUnowned
  | Tok.kw_import => some "import"
  | Tok.kw_typealias => some "typealias"
  | Tok.kw_struct => some "struct"
  | Tok.kw_class => some "class"
  | Tok.kw_enum => some "enum"
  | Tok.kw_protocol => some "protocol"
  | Tok.kw_var => some "var"
  | Tok.kw_func => some "func"
  | Tok.kw_static => some "static"
  | Tok.kw_init => some "init"
  | Tok.kw_case => some "case"
  | Tok.kw_destructor => some "destructor"
  | Tok.kw_extension => some "extension"
  | Tok.kw_subscript => some "subscript"
  | Tok.kw_return => some "return"
  | _ => none

/-- `Parser::startsWithLess`: an operator token whose text begins with
`<`. -/
def startsWithLessTok : Tok → Bool
  | Tok.oper t => t.startsWith "<"
  | _ => false

/-- `parseIdentifierDeclName` (ParseDecl.cpp lines 786-818): an identifier
succeeds directly; otherwise the supplied diagnostic is emitted (when it is
not `invalid_diagnostic`, flag `emitDiag`), and a keyword whose following
token is one of the resynchronization tokens (or starts with `<` when
`withLess` is set) recovers by synthesizing the keyword text with a `#`
sentinel appended. -/
def parseIdentifierDeclName (resync : List Tok) (withLess : Bool)
    (emitDiag : Bool) (toks : List Tok) :
    Option String × List Tok × List DiagKind :=
  match toks with
  | Tok.identifier s :: rest => (some s, rest, [])
  | t :: rest =>
    let d : List DiagKind :=
      if emitDiag then [DiagKind.expectedIdentifierInDecl] else []
    match tokKeywordText t with
    | some kwText =>
      let peekOk :=
        match rest with
        | p :: _ => resync.contains p || (withLess && startsWithLessTok p)
        | [] => false
      if peekOk then (some (kwText ++ "#"), rest, d)
      else (none, t :: rest, d)
    | none => (none, t :: rest, d)
  | [] => (none, [], if emitDiag then [DiagKind.expectedIdentifierInDecl] else [])

/-- Result of a sub-parser that returns a node together with the parser
status bit (`makeParserResult(Status, D)`): the node, the error bit, the
remaining tokens and the diagnostics. -/
structure StatusOut (α : Type) where
  decl : Option α
  error : Bool
  toks : List Tok
  diags : List DiagKind
deriving Repr

/-- `ProtocolDecl` restricted to the modelled observables; this sub-parser
never calls `setInvalid`, so `invalid` stays false. -/
structure ProtoDecl where
  name : String
  invalid : Bool
  memberCount : Nat
deriving DecidableEq, Repr

/-- `Parser::parseDeclProtocol` (ParseDecl.cpp lines 2237-2304).  `pinh`
is `parseInheritance`'s peer type parsing, `pmem` the member list parsed
through `parseNominalDeclMembers`/`parseList` (members, remaining tokens,
error bit, diagnostics).  After the body, `PD_DisallowNominalTypes`
diagnoses `disallowed_type`, otherwise a missing `PD_AllowTopLevel`
diagnoses `decl_inner_scope`; in both cases the status goes to error but
the node is still returned, never marked invalid. -/
def parseDeclProtocol
    (pinh : List Tok → List Tok × List DiagKind)
    (pmem : List Tok → List MemberDecl × List Tok × Bool × List DiagKind)
    (disallowNominalTypes allowTopLevel : Bool)
    (toks : List Tok) : StatusOut ProtoDecl :=
  match toks with
  | Tok.kw_protocol :: rest =>
    match parseIdentifierDeclName [Tok.colon, Tok.l_brace] false true rest with
    | (none, t1, ds0) => ⟨none, true, t1, ds0⟩
    | (some name, t1, ds0) =>
      let inh : List Tok × List DiagKind :=
        match t1 with
        | Tok.colon :: _ => pinh t1
        | _ => (t1, [])
      let body : Nat × List Tok × Bool × List DiagKind :=
        match inh.1 with
        | Tok.l_brace :: rest2 =>
          let m := pmem rest2
          (m.1.length, m.2.1, m.2.2.1, m.2.2.2)
        | other => (0, other, true, [DiagKind.expectedLbraceProtocol])
      let tail : Bool × List DiagKind :=
        if disallowNominalTypes then (true, [DiagKind.disallowedType])
        else if !allowTopLevel then (true, [DiagKind.declInnerScope])
        else (false, [])
      ⟨some ⟨name, false, body.1⟩, body.2.2.1 || tail.1, body.2.1,
        ds0 ++ inh.2 ++ body.2.2.2 ++ tail.2⟩
  | _ => ⟨none, true, toks, []⟩

/-- `EnumDecl`/`StructDecl`/`ClassDecl` restricted to the modelled
observables; the `PD_DisallowNominalTypes` path never calls `setInvalid`,
so `invalid` stays false. -/
structure NominalDecl where
  name : String
  invalid : Bool
  memberCount : Nat
deriving DecidableEq, Repr

/-- `Parser::parseDeclEnum` (ParseDecl.cpp lines 1806-1877).  `pgen` is
the peer `maybeParseGenericParams`, `pinh` and `pmem` as for protocols.
Under `PD_DisallowNominalTypes` the `disallowed_type` diagnostic is
emitted and the status set to error, but the node is still returned. -/
def parseDeclEnum
    (pgen : List Tok → List Tok)
    (pinh : List Tok → List Tok × List DiagKind)
    (pmem : List Tok → List MemberDecl × List Tok × Bool × List DiagKind)
    (disallowNominalTypes : Bool) (toks : List Tok) : StatusOut NominalDecl :=
  match toks with
  | Tok.kw_enum :: rest =>
    match parseIdentifierDeclName [Tok.colon, Tok.l_brace] true true rest with
    | (none, t1, ds0) => ⟨none, true, t1, ds0⟩
    | (some name, t1, ds0) =>
      let t2 := pgen t1
      let inh : List Tok × List DiagKind :=
        match t2 with
        | Tok.colon :: _ => pinh t2
        | _ => (t2, [])
      let body : Nat × List Tok × Bool × List DiagKind :=
        match inh.1 with
        | Tok.l_brace :: rest2 =>
          let m := pmem rest2
          (m.1.length, m.2.1, m.2.2.1, m.2.2.2)
        | other => (0, other, true, [DiagKind.expectedLbraceEnum])
      let guardDiags : List DiagKind :=
        if disallowNominalTypes then [DiagKind.disallowedType] else []
      ⟨some ⟨name, false, body.1⟩, body.2.2.1 || disallowNominalTypes,
        body.2.1, ds0 ++ inh.2 ++ body.2.2.2 ++ guardDiags⟩
  | _ => ⟨none, true, toks, []⟩

/-- `Parser::parseDeclStruct` (ParseDecl.cpp lines 2062-2138), analogous
to `parseDeclEnum`. -/
def parseDeclStruct
    (pgen : List Tok → List Tok)
    (pinh : List Tok → List Tok × List DiagKind)
    (pmem : List Tok → List MemberDecl × List Tok × Bool × List DiagKind)
    (disallowNominalTypes : Bool) (toks : List Tok) : StatusOut NominalDecl :=
  match toks with
  | Tok.kw_struct :: rest =>
    match parseIdentifierDeclName [Tok.colon, Tok.l_brace] true true rest with
    | (none, t1, ds0) => ⟨none, true, t1, ds0⟩
    | (some name, t1, ds0) =>
      let t2 := pgen t1
      let inh : List Tok × List DiagKind :=
        match t2 with
        | Tok.colon :: _ => pinh t2
        | _ => (t2, [])
      let body : Nat × List Tok × Bool × List DiagKind :=
        match inh.1 with
        | Tok.l_brace :: rest2 =>
          let m := pmem rest2
          (m.1.length, m.2.1, m.2.2.1, m.2.2.2)
        | other => (0, other, true, [DiagKind.expectedLbraceStruct])
      let guardDiags : List DiagKind :=
        if disallowNominalTypes then [DiagKind.disallowedType] else []
      ⟨some ⟨name, false, body.1⟩, body.2.2.1 || disallowNominalTypes,
        body.2.1, ds0 ++ inh.2 ++ body.2.2.2 ++ guardDiags⟩
  | _ => ⟨none, true, toks, []⟩

/-- `Parser::parseDeclClass` (ParseDecl.cpp lines 2149-2221), analogous
to `parseDeclEnum`. -/
def parseDeclClass
    (pgen : List Tok → List Tok)
    (pinh : List Tok → List Tok × List DiagKind)
    (pmem : List Tok → List MemberDecl × List Tok × Bool × List DiagKind)
    (disallowNominalTypes : Bool) (toks : List Tok) : StatusOut NominalDecl :=
  match toks with
  | Tok.kw_class :: rest =>
    match parseIdentifierDeclName [Tok.colon, Tok.l_brace] true true rest with
    | (none, t1, ds0) => ⟨none, true, t1, ds0⟩
    | (some name, t1, ds0) =>
      let t2 := pgen t1
      let inh : List Tok × List DiagKind :=
        match t2 with
        | Tok.colon :: _ => pinh t2
        | _ => (t2, [])
      let body : Nat × List Tok × Bool × List DiagKind :=
        match inh.1 with
        | Tok.l_brace :: rest2 =>
          let m := pmem rest2
          (m.1.length, m.2.1, m.2.2.1, m.2.2.2)
        | other => (0, other, true, [DiagKind.expectedLbraceClass])
      let guardDiags : List DiagKind :=
        if disallowNominalTypes then [DiagKind.disallowedType] else []
      ⟨some ⟨name, false, body.1⟩, body.2.2.1 || disallowNominalTypes,
        body.2.1, ds0 ++ inh.2 ++ body.2.2.2 ++ guardDiags⟩
  | _ => ⟨none, true, toks, []⟩

/-! ## Theorems -/

/-- The mutual-exclusion invariant on declaration attribute sets: `weak`
and `unowned` are not both set, fixity attributes are not both set, and at
most one resilience attribute is set. -/
def declAttrWF (a : DeclAttributes) : Bool :=
  !(a.weak && a.unowned) && !(a.fixityPre && a.fixityPost) &&
    !(a.resilient && a.fragile) && !(a.resilient && a.bornFragile) &&
    !(a.fragile && a.bornFragile)

/-- The mutual-exclusion invariant on type attribute sets: `inout` and
`auto_closure` are not both set. -/
def typeAttrWF (a : TypeAttributes) : Bool :=
  !(a.inoutSet && a.autoClosureSet)

set_option maxHeartbeats 1000000 in
theorem parseDeclAttribute_wf (a : DeclAttributes) (toks : List Tok)
    (h : declAttrWF a = true) :
    declAttrWF (parseDeclAttribute a toks).attrs = true := by
  rcases toks with _ | ⟨t, rest⟩
  · simpa [parseDeclAttribute] using h
  · rcases a with ⟨asm, inf, un, st, w, uo, nr, op, r, f, b, pre, post, ex, nm⟩
    simp only [parseDeclAttribute]
    rcases ht : attrTokenText t with _ | text
    · simp only [ht]; simpa using h
    · simp only [ht]
      rcases hd : declAttrOfText text with _ | ak
      · simp only [hd]; simpa using h
      · simp only [hd]
        cases ak <;>
          simp only [DeclAttributes.has, DeclAttributes.setAttr,
            DeclAttributes.clearAttr, DeclAttributes.hasOwnership,
            DeclAttributes.resilienceIsDefault] <;>
          (repeat' split) <;>
          simp_all [declAttrWF]

set_option maxHeartbeats 1000000 in
theorem parseTypeAttribute_wf (silMode : Bool) (a : TypeAttributes)
    (toks : List Tok) (h : typeAttrWF a = true) :
    typeAttrWF (parseTypeAttribute silMode a toks).attrs = true := by
  rcases toks with _ | ⟨t, rest⟩
  · simpa [parseTypeAttribute] using h
  · rcases a with ⟨nr, io, ac, cb, ls, ss, sw, su, cv⟩
    simp only [parseTypeAttribute]
    rcases ht : typeAttrTokenText t with _ | text
    · simp only [ht]; simpa using h
    · simp only [ht]
      rcases hd : typeAttrOfText text with _ | ak
      · simp only [hd]; simpa using h
      · simp only [hd]
        cases ak <;>
          simp only [TypeAttributes.has, TypeAttributes.setAttr,
            TypeAttributes.clearAttr, TypeAttributes.hasOwnership] <;>
          (repeat' split) <;>
          simp_all [typeAttrWF]

theorem parseDeclAttrListAux_wf (fuel : Nat) :
    ∀ (a : DeclAttributes) (toks : List Tok) (diags : List DiagKind),
      declAttrWF a = true →
      declAttrWF (parseDeclAttrListAux fuel a toks diags).attrs = true := by
  induction fuel with
  | zero =>
    intro a toks diags h
    simpa [parseDeclAttrListAux] using h
  | succ n ih =>
    intro a toks diags h
    rcases toks with _ | ⟨t, rest⟩
    · simpa [parseDeclAttrListAux] using h
    · cases t <;> simp only [parseDeclAttrListAux] <;> try simpa using h
      case at_sign =>
        have hr := parseDeclAttribute_wf a rest h
        split
        · simpa using hr
        · split
          · exact ih _ _ _ hr
          · exact ih _ _ _ hr
          · simpa using hr

theorem parseTypeAttrListAux_wf (silMode : Bool) (fuel : Nat) :
    ∀ (a : TypeAttributes) (toks : List Tok) (diags : List DiagKind),
      typeAttrWF a = true →
      typeAttrWF (parseTypeAttrListAux silMode fuel a toks diags).attrs = true := by
  induction fuel with
  | zero =>
    intro a toks diags h
    simpa [parseTypeAttrListAux] using h
  | succ n ih =>
    intro a toks diags h
    rcases toks with _ | ⟨t, rest⟩
    · simpa [parseTypeAttrListAux] using h
    · cases t <;> simp only [parseTypeAttrListAux] <;> try simpa using h
      case at_sign =>
        have hr := parseTypeAttribute_wf silMode a rest h
        split
        · simpa using hr
        · split
          · exact ih _ _ _ hr
          · exact ih _ _ _ hr
          · simpa using hr

/-- C1: for every declaration-attribute set and every type-attribute set
produced by the attribute list parsers from the empty set, on any input
token sequence: `weak` and `unowned` are never both set; `prefix` and
`postfix` are never both set; at most one of `resilient`, `fragile`,
`born_fragile` is set; and for type attributes at most one of `inout` and
`auto_closure` is set. -/
theorem claim_C1 :
    (∀ toks : List Tok,
      declAttrWF (parseDeclAttributeListPresent {} toks).attrs = true) ∧
    (∀ (silMode : Bool) (toks : List Tok),
      typeAttrWF (parseTypeAttributeListPresent silMode {} toks).attrs = true) := by
  constructor
  · intro toks
    exact parseDeclAttrListAux_wf _ _ _ _ (by decide)
  · intro silMode toks
    exact parseTypeAttrListAux_wf _ _ _ _ _ (by decide)

/-- C4: for every `asmname` attribute, if it is not followed by `=` and a
non-interpolated single-segment string literal then a diagnostic is
emitted and the attribute is cleared; otherwise the stored payload is the
raw content of the literal, so `@asmname="_malloc"` stores `_malloc`. -/
theorem claim_C4 :
    (∀ (s : String) (rest : List Tok),
      parseDeclAttribute {} (Tok.identifier sAsmname :: Tok.equal ::
          Tok.string_literal [⟨SegKind.literal, s⟩] :: rest) =
        ⟨false, { asmnameSet := true, asmName := some s }, rest, []⟩) ∧
    (∀ rest : List Tok, rest.head? ≠ some Tok.equal →
      (parseDeclAttribute {} (Tok.identifier sAsmname :: rest)).attrs = {} ∧
      (parseDeclAttribute {} (Tok.identifier sAsmname :: rest)).diags =
        [DiagKind.asmnameExpectedEquals]) ∧
    (∀ (t : Tok) (rest : List Tok), (∀ segs, t ≠ Tok.string_literal segs) →
      (parseDeclAttribute {}
        (Tok.identifier sAsmname :: Tok.equal :: t :: rest)).attrs = {} ∧
      (parseDeclAttribute {}
        (Tok.identifier sAsmname :: Tok.equal :: t :: rest)).diags =
        [DiagKind.asmnameExpectedStringLiteral]) ∧
    (∀ (segs : List StringSegment) (rest : List Tok),
      (∀ s, segs ≠ [⟨SegKind.literal, s⟩]) →
      (parseDeclAttribute {} (Tok.identifier sAsmname :: Tok.equal ::
          Tok.string_literal segs :: rest)).attrs = {} ∧
      (parseDeclAttribute {} (Tok.identifier sAsmname :: Tok.equal ::
          Tok.string_literal segs :: rest)).diags =
        [DiagKind.asmnameInterpolatedString]) ∧
    (parseDeclAttribute {} [Tok.identifier sAsmname, Tok.equal,
        Tok.string_literal [⟨SegKind.literal, "_malloc"⟩],
        Tok.kw_func]).attrs.asmName = some "_malloc" := by
  refine ⟨fun s rest => rfl, fun rest h => ?_, fun t rest h => ?_,
    fun segs rest h => ?_, rfl⟩
  · rcases rest with _ | ⟨t, tail⟩
    · exact ⟨rfl, rfl⟩
    · cases t <;> simp_all <;> exact ⟨rfl, rfl⟩
  · cases t <;> simp_all <;> exact ⟨rfl, rfl⟩
  · rcases segs with _ | ⟨⟨k, c⟩, tail⟩
    · exact ⟨rfl, rfl⟩
    · rcases tail with _ | ⟨seg2, tail2⟩
      · cases k
        · exact absurd rfl (h c)
        · exact ⟨rfl, rfl⟩
      · exact ⟨rfl, rfl⟩

/-- C4 witness: the bad-shape branches of `claim_C4` at concrete inputs. -/
theorem claim_C4_witness :
    (([Tok.kw_func] : List Tok).head? ≠ some Tok.equal) ∧
    (parseDeclAttribute {} [Tok.identifier sAsmname, Tok.kw_func]).attrs = {} ∧
    (parseDeclAttribute {} [Tok.identifier sAsmname, Tok.kw_func]).diags =
      [DiagKind.asmnameExpectedEquals] :=
  ⟨by simp, (claim_C4.2.1 [Tok.kw_func] (by simp)).1,
    (claim_C4.2.1 [Tok.kw_func] (by simp)).2⟩

/-- C5 counterexample: the list shape `@A @B,` with a trailing comma after
the last attribute does not parse successfully: the parser consumes the
comma, then requires another `@` and fails with a diagnostic.  Here
`@exported @noreturn,` followed by end of file returns the error status. -/
theorem claim_C5_counterexample :
    (parseDeclAttributeListPresent {} [Tok.at_sign, Tok.identifier sExported,
        Tok.at_sign, Tok.identifier sNoreturn, Tok.comma, Tok.eof]).error
      = true ∧
    (parseDeclAttributeListPresent {} [Tok.at_sign, Tok.identifier sExported,
        Tok.at_sign, Tok.identifier sNoreturn, Tok.comma, Tok.eof]).diags =
      [DiagKind.expectedInAttributeList] := by
  exact ⟨rfl, rfl⟩

/-- C5 amended: the attribute-list parser accepts `@A @B` and `@A, @B`
without error (commas between attribute clauses are optional), but a list
ending in a comma after the last attribute is an error: the comma is
consumed, another attribute clause is required, and the parser diagnoses
`expected '@'` and returns failure. -/
theorem claim_C5_amended :
    (∀ (t : Tok) (rest : List Tok), t ≠ Tok.at_sign → t ≠ Tok.comma →
      parseDeclAttributeListPresent {} (Tok.at_sign :: Tok.identifier sExported ::
          Tok.at_sign :: Tok.identifier sNoreturn :: t :: rest) =
        ⟨false, { exportedSet := true, noreturnSet := true }, t :: rest, []⟩) ∧
    (∀ (t : Tok) (rest : List Tok), t ≠ Tok.at_sign → t ≠ Tok.comma →
      parseDeclAttributeListPresent {} (Tok.at_sign :: Tok.identifier sExported ::
          Tok.comma :: Tok.at_sign :: Tok.identifier sNoreturn :: t :: rest) =
        ⟨false, { exportedSet := true, noreturnSet := true }, t :: rest, []⟩) ∧
    (∀ (t : Tok) (rest : List Tok), t ≠ Tok.at_sign →
      (parseDeclAttributeListPresent {} (Tok.at_sign :: Tok.identifier sExported ::
          Tok.at_sign :: Tok.identifier sNoreturn :: Tok.comma ::
          t :: rest)).error = true ∧
      (parseDeclAttributeListPresent {} (Tok.at_sign :: Tok.identifier sExported ::
          Tok.at_sign :: Tok.identifier sNoreturn :: Tok.comma ::
          t :: rest)).diags = [DiagKind.expectedInAttributeList]) := by
  refine ⟨fun t rest h1 h2 => ?_, fun t rest h1 h2 => ?_, fun t rest h1 => ?_⟩
  · cases t <;> first | rfl | simp_all
  · cases t <;> first | rfl | simp_all
  · cases t <;> first | exact ⟨rfl, rfl⟩ | simp_all

/-- C5 amended witness: the three branches at a concrete following token. -/
theorem claim_C5_amended_witness :
    (Tok.eof ≠ Tok.at_sign ∧ Tok.eof ≠ Tok.comma) ∧
    parseDeclAttributeListPresent {} [Tok.at_sign, Tok.identifier sExported,
        Tok.at_sign, Tok.identifier sNoreturn, Tok.eof] =
      ⟨false, { exportedSet := true, noreturnSet := true }, [Tok.eof], []⟩ ∧
    (parseDeclAttributeListPresent {} [Tok.at_sign, Tok.identifier sExported,
        Tok.at_sign, Tok.identifier sNoreturn, Tok.comma, Tok.kw_var]).error
      = true :=
  ⟨⟨by simp, by simp⟩, claim_C5_amended.1 Tok.eof [] (by simp) (by simp),
    (claim_C5_amended.2.2 Tok.kw_var [] (by simp)).1⟩

/-- The single-segment case of the import-path loop: the path stops when
the token after the first segment is not a period. -/
theorem parseImportPath_single (s : String) (rest : List Tok)
    (h : rest.head? ≠ some Tok.period) :
    parseImportPath (Tok.identifier s :: rest) = (some [s], rest, []) := by
  rcases rest with _ | ⟨t, tail⟩
  · rfl
  · cases t <;> simp_all [parseImportPath, anyIdentText]

/-- C2: an import declaration that begins with a kind keyword fails with a
diagnostic and produces no node when the dotted path has exactly one
segment; with no kind keyword a one-segment path yields a module import
(and `import Foo.Bar` yields a module import with path `[Foo, Bar]`). -/
theorem claim_C2 :
    (∀ (kt : Tok) (s : String) (rest : List Tok),
      kt ∈ [Tok.kw_typealias, Tok.kw_struct, Tok.kw_class, Tok.kw_enum,
            Tok.kw_protocol, Tok.kw_var, Tok.kw_func] →
      rest.head? ≠ some Tok.period →
      (parseDeclImport ⟨true, false, false⟩ {}
          (Tok.kw_import :: kt :: Tok.identifier s :: rest)).decl = none ∧
      DiagKind.declExpectedModuleName ∈
        (parseDeclImport ⟨true, false, false⟩ {}
          (Tok.kw_import :: kt :: Tok.identifier s :: rest)).diags) ∧
    (∀ (s : String) (rest : List Tok),
      rest.head? ≠ some Tok.period →
      parseDeclImport ⟨true, false, false⟩ {}
          (Tok.kw_import :: Tok.identifier s :: rest) =
        ⟨some ⟨ImportKind.module, [s], false⟩, rest, []⟩) ∧
    (parseDeclImport ⟨true, false, false⟩ {}
        [Tok.kw_import, Tok.identifier "Foo", Tok.period,
         Tok.identifier "Bar", Tok.eof] =
      ⟨some ⟨ImportKind.module, ["Foo", "Bar"], false⟩, [Tok.eof], []⟩) := by
  refine ⟨fun kt s rest hkt hrest => ?_, fun s rest hrest => ?_, rfl⟩
  · have hp := parseImportPath_single s rest hrest
    fin_cases hkt <;>
      simp_all [parseDeclImport, DeclAttributes.isExported,
        DeclAttributes.clearAttr, DeclAttributes.isEmpty, isKeywordTok,
        importKindOfTok]
  · have hp := parseImportPath_single s rest hrest
    simp_all [parseDeclImport, DeclAttributes.isExported,
      DeclAttributes.clearAttr, DeclAttributes.isEmpty, isKeywordTok]

/-- C2 witness: `import struct Foo` fails without a node; `import Foo`
yields a module import. -/
theorem claim_C2_witness :
    ((parseDeclImport ⟨true, false, false⟩ {}
        [Tok.kw_import, Tok.kw_struct, Tok.identifier "Foo",
         Tok.eof]).decl = none ∧
      DiagKind.declExpectedModuleName ∈
        (parseDeclImport ⟨true, false, false⟩ {}
          [Tok.kw_import, Tok.kw_struct, Tok.identifier "Foo",
           Tok.eof]).diags) ∧
    parseDeclImport ⟨true, false, false⟩ {}
        [Tok.kw_import, Tok.identifier "Foo", Tok.eof] =
      ⟨some ⟨ImportKind.module, ["Foo"], false⟩, [Tok.eof], []⟩ :=
  ⟨claim_C2.1 Tok.kw_struct "Foo" [Tok.eof] (by simp) (by simp),
    claim_C2.2.1 "Foo" [Tok.eof] (by simp)⟩

/-- If the infix-operator body loop succeeds and no `associativity` token
occurs in the input, the resulting associativity is the incoming one. -/
theorem parseInfOpLoop_noAssoc (skipDR : List Tok → List Tok) (name : String) :
    ∀ (fuel prec : Nat) (assoc : Associativity) (aSeen pSeen : Bool)
      (toks : List Tok) (diags : List DiagKind) (nm : String) (d : InfixData),
      Tok.identifier sAssociativity ∉ toks →
      (parseInfOpLoop skipDR name fuel prec assoc aSeen pSeen toks diags).decl =
        some (OperatorDecl.infOp nm d) →
      d.assoc = assoc := by
  intro fuel
  induction fuel with
  | zero =>
    intro prec assoc aSeen pSeen toks diags nm d hna h
    simp [parseInfOpLoop] at h
  | succ n ih =>
    intro prec assoc aSeen pSeen toks diags nm d hna h
    rcases toks with _ | ⟨t, rest⟩
    · simp [parseInfOpLoop] at h
    · rw [List.mem_cons] at hna
      push_neg at hna
      obtain ⟨hne, hnr⟩ := hna
      cases t <;> simp only [parseInfOpLoop] at h <;> try simp at h
      case r_brace =>
        obtain ⟨h1, h2⟩ := h
        subst h2
        rfl
      case identifier tx =>
        have htx : ¬ tx = sAssociativity := fun hh => hne (by rw [hh])
        rw [if_neg htx] at h
        by_cases hp : tx = sPrecedence
        · rw [if_pos hp] at h
          cases pSeen
          · rcases rest with _ | ⟨v, rest2⟩
            · simp at h
            · have hnr2 : Tok.identifier sAssociativity ∉ rest2 :=
                fun hm => hnr (List.mem_cons_of_mem _ hm)
              cases v <;> try simp at h
              rename_i val
              · by_cases hv : val ≤ 255
                · rw [if_pos hv] at h
                  exact ih _ _ _ _ _ _ _ _ hnr2 h
                · rw [if_neg hv] at h
                  exact ih _ _ _ _ _ _ _ _ hnr2 h
          · simp at h
        · rw [if_neg hp] at h
          simp at h

/-- If the infix-operator body loop succeeds and no `precedence` token
occurs in the input, the resulting precedence is the incoming one. -/
theorem parseInfOpLoop_noPrec (skipDR : List Tok → List Tok) (name : String) :
    ∀ (fuel prec : Nat) (assoc : Associativity) (aSeen pSeen : Bool)
      (toks : List Tok) (diags : List DiagKind) (nm : String) (d : InfixData),
      Tok.identifier sPrecedence ∉ toks →
      (parseInfOpLoop skipDR name fuel prec assoc aSeen pSeen toks diags).decl =
        some (OperatorDecl.infOp nm d) →
      d.precedence = prec := by
  intro fuel
  induction fuel with
  | zero =>
    intro prec assoc aSeen pSeen toks diags nm d hnp h
    simp [parseInfOpLoop] at h
  | succ n ih =>
    intro prec assoc aSeen pSeen toks diags nm d hnp h
    rcases toks with _ | ⟨t, rest⟩
    · simp [parseInfOpLoop] at h
    · rw [List.mem_cons] at hnp
      push_neg at hnp
      obtain ⟨hne, hnr⟩ := hnp
      cases t <;> simp only [parseInfOpLoop] at h <;> try simp at h
      case r_brace =>
        obtain ⟨h1, h2⟩ := h
        subst h2
        rfl
      case identifier tx =>
        have htx : ¬ tx = sPrecedence := fun hh => hne (by rw [hh])
        by_cases ha : tx = sAssociativity
        · rw [if_pos ha] at h
          cases aSeen
          · rcases rest with _ | ⟨v, rest2⟩
            · simp at h
            · have hnr2 : Tok.identifier sPrecedence ∉ rest2 :=
                fun hm => hnr (List.mem_cons_of_mem _ hm)
              cases v <;> try simp at h
              rename_i vx
              · rcases hav : assocOfName vx with _ | a
                · rw [hav] at h
                  simp at h
                · rw [hav] at h
                  exact ih _ _ _ _ _ _ _ _ hnr2 h
          · simp at h
        · rw [if_neg ha, if_neg htx] at h
          simp at h

/-- C3: an infix operator body with no associativity attribute yields
associativity `none`, with no precedence attribute yields precedence 100;
a second occurrence of either keyed attribute is diagnosed and the
declaration fails; `{ associativity left precedence 150 }` yields
associativity `left` and precedence 150. -/
theorem claim_C3 :
    (∀ (name : String) (skipDR : List Tok → List Tok),
      parseDeclInfixOperator skipDR name [Tok.l_brace, Tok.r_brace] =
        ⟨some (OperatorDecl.infOp name ⟨100, Associativity.none⟩),
          [Tok.r_brace], []⟩) ∧
    (∀ (name : String) (skipDR : List Tok → List Tok) (body : List Tok)
        (nm : String) (d : InfixData),
      Tok.identifier sAssociativity ∉ body →
      (parseDeclInfixOperator skipDR name (Tok.l_brace :: body)).decl =
        some (OperatorDecl.infOp nm d) →
      d.assoc = Associativity.none) ∧
    (∀ (name : String) (skipDR : List Tok → List Tok) (body : List Tok)
        (nm : String) (d : InfixData),
      Tok.identifier sPrecedence ∉ body →
      (parseDeclInfixOperator skipDR name (Tok.l_brace :: body)).decl =
        some (OperatorDecl.infOp nm d) →
      d.precedence = 100) ∧
    (∀ (name : String) (skipDR : List Tok → List Tok) (fuel prec : Nat)
        (assoc : Associativity) (pSeen : Bool) (rest : List Tok)
        (diags : List DiagKind),
      parseInfOpLoop skipDR name (fuel + 1) prec assoc true pSeen
          (Tok.identifier sAssociativity :: rest) diags =
        ⟨none, skipDR (Tok.identifier sAssociativity :: rest),
          diags ++ [DiagKind.operatorAssociativityRedeclared]⟩) ∧
    (∀ (name : String) (skipDR : List Tok → List Tok) (fuel prec : Nat)
        (assoc : Associativity) (aSeen : Bool) (rest : List Tok)
        (diags : List DiagKind),
      parseInfOpLoop skipDR name (fuel + 1) prec assoc aSeen true
          (Tok.identifier sPrecedence :: rest) diags =
        ⟨none, skipDR (Tok.identifier sPrecedence :: rest),
          diags ++ [DiagKind.operatorPrecedenceRedeclared]⟩) ∧
    (∀ (name : String) (skipDR : List Tok → List Tok),
      parseDeclInfixOperator skipDR name [Tok.l_brace,
          Tok.identifier sAssociativity, Tok.identifier sLeft,
          Tok.identifier sPrecedence, Tok.integer_literal 150,
          Tok.r_brace] =
        ⟨some (OperatorDecl.infOp name ⟨150, Associativity.left⟩),
          [Tok.r_brace], []⟩) := by
  refine ⟨fun name skipDR => rfl,
    fun name skipDR body nm d hna h =>
      parseInfOpLoop_noAssoc skipDR name _ _ _ _ _ _ _ _ _ hna h,
    fun name skipDR body nm d hnp h =>
      parseInfOpLoop_noPrec skipDR name _ _ _ _ _ _ _ _ _ hnp h,
    fun name skipDR fuel prec assoc pSeen rest diags => rfl,
    fun name skipDR fuel prec assoc aSeen rest diags => rfl,
    fun name skipDR => rfl⟩

/-- C3 witness: the no-associativity branch of `claim_C3` at the empty
body. -/
theorem claim_C3_witness :
    Tok.identifier sAssociativity ∉ ([Tok.r_brace] : List Tok) ∧
    (⟨100, Associativity.none⟩ : InfixData).assoc = Associativity.none :=
  ⟨by simp, claim_C3.2.1 "+" id [Tok.r_brace] "+"
    ⟨100, Associativity.none⟩ (by simp) rfl⟩

/-- C7: when the accessor block yields a setter but no getter, the
variable is not made computed (no accessors are installed), the setter is
discarded, and — unless the block had already gone invalid, in which case
an error was already diagnosed — the `var_set_without_get` diagnostic is
emitted. -/
theorem claim_C7 :
    ∀ (pbi : Nat → List Tok → Nat × List Tok) (skipDR : List Tok → List Tok)
      (hasName hasType : Bool) (pos : Nat) (rest : List Tok)
      (a : AccessorInfo),
      (parseGetSetLoop pbi (rest.length + 1) (pos + 1) none none rest []).getA
          = none →
      (parseGetSetLoop pbi (rest.length + 1) (pos + 1) none none rest []).setA
          = some a →
      (parseDeclVarGetSet pbi skipDR hasName hasType pos
          (Tok.l_brace :: rest)).installed = false ∧
      (parseDeclVarGetSet pbi skipDR hasName hasType pos
          (Tok.l_brace :: rest)).instSet = none ∧
      ((parseGetSetLoop pbi (rest.length + 1) (pos + 1) none none rest
          []).invalid = false →
        DiagKind.varSetWithoutGet ∈
          (parseDeclVarGetSet pbi skipDR hasName hasType pos
            (Tok.l_brace :: rest)).diags) := by
  intro pbi skipDR hasName hasType pos rest a hg hs
  refine ⟨?_, ?_, ?_⟩
  · simp [parseDeclVarGetSet, hg, hs]
  · simp [parseDeclVarGetSet, hg, hs]
  · intro hinv
    simp [parseDeclVarGetSet, hg, hs, hinv]

/-- C7 witness: the block `{ set: }` yields no computed variable and the
`var_set_without_get` diagnostic. -/
theorem claim_C7_witness :
    (parseDeclVarGetSet pbiUntilRBrace id true true 0
        [Tok.l_brace, Tok.identifier sSet, Tok.colon, Tok.r_brace,
         Tok.eof]).installed = false ∧
    (parseDeclVarGetSet pbiUntilRBrace id true true 0
        [Tok.l_brace, Tok.identifier sSet, Tok.colon, Tok.r_brace,
         Tok.eof]).instSet = none ∧
    ((parseGetSetLoop pbiUntilRBrace
        ([Tok.identifier sSet, Tok.colon, Tok.r_brace, Tok.eof].length + 1)
        1 none none [Tok.identifier sSet, Tok.colon, Tok.r_brace, Tok.eof]
        []).invalid = false →
      DiagKind.varSetWithoutGet ∈
        (parseDeclVarGetSet pbiUntilRBrace id true true 0
          [Tok.l_brace, Tok.identifier sSet, Tok.colon, Tok.r_brace,
           Tok.eof]).diags) :=
  claim_C7 pbiUntilRBrace id true true 0
    [Tok.identifier sSet, Tok.colon, Tok.r_brace, Tok.eof]
    ⟨1, 3, {}, some sValue, true⟩ rfl rfl

/-- C9: a clause whose leading token is neither `set` nor `get` is parsed
as a getter with nothing consumed before the body — the brace-item parser
starts at the current token and the getter location is the current
position; in particular `{ return 1 }` yields a variable with a getter and
no setter. -/
theorem claim_C9 :
    (∀ (pbi : Nat → List Tok → Nat × List Tok) (fuel pos : Nat)
        (s : Option AccessorInfo) (t : Tok) (rest : List Tok)
        (diags : List DiagKind),
      t ≠ Tok.r_brace → t ≠ Tok.eof → t ≠ Tok.at_sign →
      isCtxKw t sGet = false → isCtxKw t sSet = false →
      parseGetSetLoop pbi (fuel + 1) pos none s (t :: rest) diags =
        parseGetSetLoop pbi fuel (pbi pos (t :: rest)).1
          (some ⟨pos, pos, {}, none, false⟩) s (pbi pos (t :: rest)).2
          diags) ∧
    parseDeclVarGetSet pbiUntilRBrace id true true 0
        [Tok.l_brace, Tok.kw_return, Tok.integer_literal 1, Tok.r_brace,
         Tok.eof] =
      ⟨true, some ⟨1, 1, {}, none, false⟩, none, [Tok.eof], []⟩ := by
  constructor
  · intro pbi fuel pos s t rest diags h1 h2 h3 h4 h5
    simp [parseGetSetLoop, h1, h2, h3, h4, h5]
  · rfl

/-- C9 witness: the keywordless-clause equation at a concrete state. -/
theorem claim_C9_witness :
    parseGetSetLoop pbiUntilRBrace 1 1 none none
        [Tok.kw_return, Tok.r_brace] [] =
      parseGetSetLoop pbiUntilRBrace 0
        (pbiUntilRBrace 1 [Tok.kw_return, Tok.r_brace]).1
        (some ⟨1, 1, {}, none, false⟩) none
        (pbiUntilRBrace 1 [Tok.kw_return, Tok.r_brace]).2 [] :=
  claim_C9.1 pbiUntilRBrace 0 1 none Tok.kw_return [Tok.r_brace] []
    (by simp) (by simp) (by simp) (by simp [isCtxKw])
    (by simp [isCtxKw])

/-- C8: whenever both a getter and a setter exist, the two accessor
declarations are appended to the output declaration list in source order
of their starting locations — at both emission sites (computed variables
via `AddVarsToScope`, and subscripts). -/
theorem claim_C8 :
    ∀ (gf sf : AccFunc) (decls1 decls2 : List MemberDecl),
      gf.funcLoc ≠ sf.funcLoc →
      ∃ a b : AccFunc, a.funcLoc < b.funcLoc ∧
        ((a = gf ∧ b = sf) ∨ (a = sf ∧ b = gf)) ∧
        walkToPatternPostDecls decls1 true (some gf) (some sf) =
          decls1 ++ [MemberDecl.accessor a, MemberDecl.accessor b,
            MemberDecl.varD] ∧
        subscriptDeclsAppend decls2 (some gf) (some sf) =
          decls2 ++ [MemberDecl.subscriptD, MemberDecl.accessor a,
            MemberDecl.accessor b] := by
  intro gf sf d1 d2 hne
  by_cases hlt : gf.funcLoc < sf.funcLoc
  · exact ⟨gf, sf, hlt, Or.inl ⟨rfl, rfl⟩,
      by simp [walkToPatternPostDecls, emitAccessorsInOrder, hlt],
      by simp [subscriptDeclsAppend, emitAccessorsInOrder, hlt]⟩
  · have hlt2 : sf.funcLoc < gf.funcLoc :=
      lt_of_le_of_ne (not_lt.mp hlt) (Ne.symm hne)
    exact ⟨sf, gf, hlt2, Or.inr ⟨rfl, rfl⟩,
      by simp [walkToPatternPostDecls, emitAccessorsInOrder, hlt],
      by simp [subscriptDeclsAppend, emitAccessorsInOrder, hlt]⟩

/-- C8 witness: `claim_C8` at getter location 1 and setter location 2. -/
theorem claim_C8_witness :
    (⟨1⟩ : AccFunc).funcLoc ≠ (⟨2⟩ : AccFunc).funcLoc ∧
    (∃ a b : AccFunc, a.funcLoc < b.funcLoc ∧
      ((a = ⟨1⟩ ∧ b = ⟨2⟩) ∨ (a = ⟨2⟩ ∧ b = ⟨1⟩)) ∧
      walkToPatternPostDecls [] true (some ⟨1⟩) (some ⟨2⟩) =
        [] ++ [MemberDecl.accessor a, MemberDecl.accessor b,
          MemberDecl.varD] ∧
      subscriptDeclsAppend [] (some ⟨1⟩) (some ⟨2⟩) =
        [] ++ [MemberDecl.subscriptD, MemberDecl.accessor a,
          MemberDecl.accessor b]) :=
  ⟨by decide, claim_C8 ⟨1⟩ ⟨2⟩ [] [] (by decide)⟩

/-- C6 counterexample: an `import` at inner scope emits the
`decl_inner_scope` diagnostic but produces no AST node at all
(`return nullptr`), contradicting "still produce the AST node". -/
theorem claim_C6_counterexample :
    (parseDeclImport ⟨false, false, false⟩ {}
        [Tok.kw_import, Tok.identifier "Foo", Tok.eof]).decl = none ∧
    (parseDeclImport ⟨false, false, false⟩ {}
        [Tok.kw_import, Tok.identifier "Foo", Tok.eof]).diags =
      [DiagKind.declInnerScope] :=
  ⟨rfl, rfl⟩

set_option maxRecDepth 8192 in
set_option maxHeartbeats 1600000 in
/-- C6 amended: a declaration in a forbidden position is diagnosed and
parsing continues with the next sibling; extension (inner scope),
protocol (inner scope), destructor (outside a class) and nominal types
(where disallowed) still produce the AST node, marked invalid where
applicable — extension and destructor are marked invalid, protocol and
nominal types are not — but import and operator declarations in an inner
scope produce no AST node. -/
theorem claim_C6_amended :
    (∀ (flags : PDFlags) (attrs : DeclAttributes) (rest : List Tok),
      flags.allowTopLevel = false →
      (parseDeclImport flags attrs (Tok.kw_import :: rest)).decl = none ∧
      DiagKind.declInnerScope ∈
        (parseDeclImport flags attrs (Tok.kw_import :: rest)).diags) ∧
    (∀ (skipDR : List Tok → List Tok) (attrs : DeclAttributes)
        (toks : List Tok),
      (parseDeclOperator skipDR false attrs toks).decl = none) ∧
    (parseDeclOperator id false {} [Tok.identifier sOperator,
        Tok.identifier sInfixT, Tok.oper "<*>", Tok.l_brace, Tok.r_brace,
        Tok.eof] =
      ⟨none, [Tok.eof], [DiagKind.operatorDeclInnerScope]⟩) ∧
    (∀ (pty : List Tok → Option Unit × List Tok × List DiagKind)
        (pinh : List Tok → List Tok × List DiagKind)
        (pmem : List Tok → List MemberDecl × List Tok × Bool × List DiagKind)
        (flags : PDFlags) (rest : List Tok),
      flags.allowTopLevel = false →
      (pty rest).1.isSome = true →
      ∃ e : ExtDecl,
        (parseDeclExtension pty pinh pmem flags
          (Tok.kw_extension :: rest)).decl = some e ∧
        e.invalid = true ∧
        DiagKind.declInnerScope ∈
          (parseDeclExtension pty pinh pmem flags
            (Tok.kw_extension :: rest)).diags) ∧
    (∀ (pinh : List Tok → List Tok × List DiagKind)
        (pmem : List Tok → List MemberDecl × List Tok × Bool × List DiagKind)
        (rest t1 : List Tok) (name : String) (ds0 : List DiagKind),
      parseIdentifierDeclName [Tok.colon, Tok.l_brace] false true rest =
        (some name, t1, ds0) →
      ∃ p : ProtoDecl,
        (parseDeclProtocol pinh pmem false false
          (Tok.kw_protocol :: rest)).decl = some p ∧
        p.invalid = false ∧
        (parseDeclProtocol pinh pmem false false
          (Tok.kw_protocol :: rest)).error = true ∧
        DiagKind.declInnerScope ∈
          (parseDeclProtocol pinh pmem false false
            (Tok.kw_protocol :: rest)).diags) ∧
    (∀ (pgen : List Tok → List Tok)
        (pinh : List Tok → List Tok × List DiagKind)
        (pmem : List Tok → List MemberDecl × List Tok × Bool × List DiagKind)
        (rest t1 : List Tok) (name : String) (ds0 : List DiagKind),
      parseIdentifierDeclName [Tok.colon, Tok.l_brace] true true rest =
        (some name, t1, ds0) →
      ∃ n : NominalDecl,
        (parseDeclEnum pgen pinh pmem true
          (Tok.kw_enum :: rest)).decl = some n ∧
        n.invalid = false ∧
        (parseDeclEnum pgen pinh pmem true
          (Tok.kw_enum :: rest)).error = true ∧
        DiagKind.disallowedType ∈
          (parseDeclEnum pgen pinh pmem true
            (Tok.kw_enum :: rest)).diags) ∧
    (∀ (pgen : List Tok → List Tok)
        (pinh : List Tok → List Tok × List DiagKind)
        (pmem : List Tok → List MemberDecl × List Tok × Bool × List DiagKind)
        (rest t1 : List Tok) (name : String) (ds0 : List DiagKind),
      parseIdentifierDeclName [Tok.colon, Tok.l_brace] true true rest =
        (some name, t1, ds0) →
      ∃ n : NominalDecl,
        (parseDeclStruct pgen pinh pmem true
          (Tok.kw_struct :: rest)).decl = some n ∧
        n.invalid = false ∧
        (parseDeclStruct pgen pinh pmem true
          (Tok.kw_struct :: rest)).error = true ∧
        DiagKind.disallowedType ∈
          (parseDeclStruct pgen pinh pmem true
            (Tok.kw_struct :: rest)).diags) ∧
    (∀ (pgen : List Tok → List Tok)
        (pinh : List Tok → List Tok × List DiagKind)
        (pmem : List Tok → List MemberDecl × List Tok × Bool × List DiagKind)
        (rest t1 : List Tok) (name : String) (ds0 : List DiagKind),
      parseIdentifierDeclName [Tok.colon, Tok.l_brace] true true rest =
        (some name, t1, ds0) →
      ∃ n : NominalDecl,
        (parseDeclClass pgen pinh pmem true
          (Tok.kw_class :: rest)).decl = some n ∧
        n.invalid = false ∧
        (parseDeclClass pgen pinh pmem true
          (Tok.kw_class :: rest)).error = true ∧
        DiagKind.disallowedType ∈
          (parseDeclClass pgen pinh pmem true
            (Tok.kw_class :: rest)).diags) ∧
    (∀ (ppt : List Tok → Option ParsedPat × List Tok × List DiagKind)
        (pbi : List Tok → List Tok) (sil : Bool) (flags : PDFlags)
        (toks : List Tok) (d : DtorDecl),
      flags.allowDestructor = false →
      (parseDeclDestructor ppt pbi sil flags toks).decl = some d →
      d.invalid = true ∧
      DiagKind.destructorDeclOutsideClass ∈
        (parseDeclDestructor ppt pbi sil flags toks).diags) := by
  refine ⟨fun flags attrs rest hf => ?_, fun skipDR attrs toks => ?_, rfl,
    fun pty pinh pmem flags rest hf hsome => ?_,
    fun pinh pmem rest t1 name ds0 hname => ?_,
    fun pgen pinh pmem rest t1 name ds0 hname => ?_,
    fun pgen pinh pmem rest t1 name ds0 hname => ?_,
    fun pgen pinh pmem rest t1 name ds0 hname => ?_,
    fun ppt pbi sil flags toks d hf => ?_⟩
  · constructor <;> simp [parseDeclImport, hf]
  · simp only [parseDeclOperator]
    (repeat' split) <;> first | rfl | simp_all
  · rcases hp : pty rest with ⟨o, t1, ds1⟩
    rcases o with _ | u
    · rw [hp] at hsome; simp at hsome
    · simp only [parseDeclExtension]
      rw [hp]
      (repeat' split) <;> simp_all
  · simp only [parseDeclProtocol]
    rw [hname]
    dsimp only
    (repeat' split) <;>
      first
      | exact absurd trivial (by assumption)
      | simp_all
  · simp only [parseDeclEnum]
    rw [hname]
    dsimp only
    (repeat' split) <;>
      first
      | exact absurd trivial (by assumption)
      | simp_all
  · simp only [parseDeclStruct]
    rw [hname]
    dsimp only
    (repeat' split) <;>
      first
      | exact absurd trivial (by assumption)
      | simp_all
  · simp only [parseDeclClass]
    rw [hname]
    dsimp only
    (repeat' split) <;>
      first
      | exact absurd trivial (by assumption)
      | simp_all
  · intro hd
    revert hd
    simp only [parseDeclDestructor]
    (repeat' split) <;> intro hd <;> (try cases hd) <;> simp_all [hf]

/-- C6 amended witness: the inner-scope import branch, the inner-scope
protocol branch, the disallowed-nominal enum/struct/class branches, and
the outside-class destructor branch at concrete inputs. -/
theorem claim_C6_amended_witness :
    ((⟨false, false, false⟩ : PDFlags).allowTopLevel = false ∧
      (parseDeclImport ⟨false, false, false⟩ {}
        (Tok.kw_import :: [Tok.identifier "Foo"])).decl = none ∧
      DiagKind.declInnerScope ∈
        (parseDeclImport ⟨false, false, false⟩ {}
          (Tok.kw_import :: [Tok.identifier "Foo"])).diags) ∧
    (∃ p : ProtoDecl,
      (parseDeclProtocol (fun ts => (ts, []))
        (fun ts => ([], ts, false, [])) false false
        (Tok.kw_protocol :: [Tok.identifier "P", Tok.l_brace, Tok.r_brace,
          Tok.eof])).decl = some p ∧
      p.invalid = false ∧
      (parseDeclProtocol (fun ts => (ts, []))
        (fun ts => ([], ts, false, [])) false false
        (Tok.kw_protocol :: [Tok.identifier "P", Tok.l_brace, Tok.r_brace,
          Tok.eof])).error = true ∧
      DiagKind.declInnerScope ∈
        (parseDeclProtocol (fun ts => (ts, []))
          (fun ts => ([], ts, false, [])) false false
          (Tok.kw_protocol :: [Tok.identifier "P", Tok.l_brace,
            Tok.r_brace, Tok.eof])).diags) ∧
    (∃ n : NominalDecl,
      (parseDeclEnum id (fun ts => (ts, []))
        (fun ts => ([], ts, false, [])) true
        (Tok.kw_enum :: [Tok.identifier "E", Tok.l_brace, Tok.r_brace,
          Tok.eof])).decl = some n ∧
      n.invalid = false ∧
      (parseDeclEnum id (fun ts => (ts, []))
        (fun ts => ([], ts, false, [])) true
        (Tok.kw_enum :: [Tok.identifier "E", Tok.l_brace, Tok.r_brace,
          Tok.eof])).error = true ∧
      DiagKind.disallowedType ∈
        (parseDeclEnum id (fun ts => (ts, []))
          (fun ts => ([], ts, false, [])) true
          (Tok.kw_enum :: [Tok.identifier "E", Tok.l_brace, Tok.r_brace,
            Tok.eof])).diags) ∧
    (∃ n : NominalDecl,
      (parseDeclStruct id (fun ts => (ts, []))
        (fun ts => ([], ts, false, [])) true
        (Tok.kw_struct :: [Tok.identifier "S", Tok.l_brace, Tok.r_brace,
          Tok.eof])).decl = some n ∧
      n.invalid = false ∧
      (parseDeclStruct id (fun ts => (ts, []))
        (fun ts => ([], ts, false, [])) true
        (Tok.kw_struct :: [Tok.identifier "S", Tok.l_brace, Tok.r_brace,
          Tok.eof])).error = true ∧
      DiagKind.disallowedType ∈
        (parseDeclStruct id (fun ts => (ts, []))
          (fun ts => ([], ts, false, [])) true
          (Tok.kw_struct :: [Tok.identifier "S", Tok.l_brace, Tok.r_brace,
            Tok.eof])).diags) ∧
    (∃ n : NominalDecl,
      (parseDeclClass id (fun ts => (ts, []))
        (fun ts => ([], ts, false, [])) true
        (Tok.kw_class :: [Tok.identifier "C", Tok.l_brace, Tok.r_brace,
          Tok.eof])).decl = some n ∧
      n.invalid = false ∧
      (parseDeclClass id (fun ts => (ts, []))
        (fun ts => ([], ts, false, [])) true
        (Tok.kw_class :: [Tok.identifier "C", Tok.l_brace, Tok.r_brace,
          Tok.eof])).error = true ∧
      DiagKind.disallowedType ∈
        (parseDeclClass id (fun ts => (ts, []))
          (fun ts => ([], ts, false, [])) true
          (Tok.kw_class :: [Tok.identifier "C", Tok.l_brace, Tok.r_brace,
            Tok.eof])).diags) ∧
    ((⟨true, false, false⟩ : PDFlags).allowDestructor = false ∧
      (⟨true, true, true⟩ : DtorDecl).invalid = true ∧
      DiagKind.destructorDeclOutsideClass ∈
        (parseDeclDestructor (fun ts => (none, ts, [])) id false
          ⟨true, false, false⟩
          [Tok.kw_destructor, Tok.l_brace, Tok.r_brace, Tok.eof]).diags) :=
  ⟨⟨rfl, claim_C6_amended.1 ⟨false, false, false⟩ {} [Tok.identifier "Foo"]
      rfl⟩,
    claim_C6_amended.2.2.2.2.1 (fun ts => (ts, []))
      (fun ts => ([], ts, false, []))
      [Tok.identifier "P", Tok.l_brace, Tok.r_brace, Tok.eof]
      [Tok.l_brace, Tok.r_brace, Tok.eof] "P" [] rfl,
    claim_C6_amended.2.2.2.2.2.1 id (fun ts => (ts, []))
      (fun ts => ([], ts, false, []))
      [Tok.identifier "E", Tok.l_brace, Tok.r_brace, Tok.eof]
      [Tok.l_brace, Tok.r_brace, Tok.eof] "E" [] rfl,
    claim_C6_amended.2.2.2.2.2.2.1 id (fun ts => (ts, []))
      (fun ts => ([], ts, false, []))
      [Tok.identifier "S", Tok.l_brace, Tok.r_brace, Tok.eof]
      [Tok.l_brace, Tok.r_brace, Tok.eof] "S" [] rfl,
    claim_C6_amended.2.2.2.2.2.2.2.1 id (fun ts => (ts, []))
      (fun ts => ([], ts, false, []))
      [Tok.identifier "C", Tok.l_brace, Tok.r_brace, Tok.eof]
      [Tok.l_brace, Tok.r_brace, Tok.eof] "C" [] rfl,
    ⟨rfl, (claim_C6_amended.2.2.2.2.2.2.2.2 (fun ts => (none, ts, [])) id
        false ⟨true, false, false⟩
        [Tok.kw_destructor, Tok.l_brace, Tok.r_brace, Tok.eof]
        ⟨true, true, true⟩ rfl rfl).1,
      (claim_C6_amended.2.2.2.2.2.2.2.2 (fun ts => (none, ts, [])) id
        false ⟨true, false, false⟩
        [Tok.kw_destructor, Tok.l_brace, Tok.r_brace, Tok.eof]
        ⟨true, true, true⟩ rfl rfl).2⟩⟩

/-- C10: the parameter tuple parsed after `destructor` is never attached
to the resulting node: parses that differ only in the parenthesized
parameter tuple produce identical destructor declarations, and every
produced destructor is built from only the implicit `self` binding. -/
theorem claim_C10 :
    (∀ (ppt1 ppt2 : List Tok → Option ParsedPat × List Tok × List DiagKind)
        (pbi : List Tok → List Tok) (sil : Bool) (flags : PDFlags)
        (rest1 rest2 suffix : List Tok) (p1 p2 : Option ParsedPat)
        (ds1 ds2 : List DiagKind),
      ppt1 (Tok.l_paren :: rest1) = (p1, suffix, ds1) →
      ppt2 (Tok.l_paren :: rest2) = (p2, suffix, ds2) →
      (parseDeclDestructor ppt1 pbi sil flags
          (Tok.kw_destructor :: Tok.l_paren :: rest1)).decl =
        (parseDeclDestructor ppt2 pbi sil flags
          (Tok.kw_destructor :: Tok.l_paren :: rest2)).decl) ∧
    (∀ (ppt : List Tok → Option ParsedPat × List Tok × List DiagKind)
        (pbi : List Tok → List Tok) (sil : Bool) (flags : PDFlags)
        (toks : List Tok) (d : DtorDecl),
      (parseDeclDestructor ppt pbi sil flags toks).decl = some d →
      d.selfImplicit = true) := by
  constructor
  · intro ppt1 ppt2 pbi sil flags rest1 rest2 suffix p1 p2 ds1 ds2 h1 h2
    simp only [parseDeclDestructor]
    rw [h1, h2]
    rcases p1 with _ | q1 <;> rcases p2 with _ | q2 <;> cases sil <;>
      rcases suffix with _ | ⟨st, stail⟩ <;> (try cases st) <;> rfl
  · intro ppt pbi sil flags toks d hd
    revert hd
    simp only [parseDeclDestructor]
    (repeat' split) <;> intro hd <;> (try cases hd) <;> simp_all

/-- C10 witness: two parses whose parameter tuples differ (one field
versus none) produce the same destructor declaration. -/
theorem claim_C10_witness :
    (fun _ : List Tok => ((some (ParsedPat.tuple 1) : Option ParsedPat),
        [Tok.l_brace, Tok.r_brace, Tok.eof], ([] : List DiagKind)))
        (Tok.l_paren :: [Tok.identifier "x", Tok.r_paren]) =
      (some (ParsedPat.tuple 1), [Tok.l_brace, Tok.r_brace, Tok.eof], []) ∧
    (parseDeclDestructor
        (fun _ => (some (ParsedPat.tuple 1),
          [Tok.l_brace, Tok.r_brace, Tok.eof], [])) id false
        ⟨false, false, true⟩
        (Tok.kw_destructor :: Tok.l_paren ::
          [Tok.identifier "x", Tok.r_paren])).decl =
      (parseDeclDestructor
        (fun _ => (some (ParsedPat.tuple 0),
          [Tok.l_brace, Tok.r_brace, Tok.eof], [])) id false
        ⟨false, false, true⟩
        (Tok.kw_destructor :: Tok.l_paren :: [Tok.r_paren])).decl :=
  ⟨rfl, claim_C10.1
    (fun _ => (some (ParsedPat.tuple 1),
      [Tok.l_brace, Tok.r_brace, Tok.eof], []))
    (fun _ => (some (ParsedPat.tuple 0),
      [Tok.l_brace, Tok.r_brace, Tok.eof], []))
    id false ⟨false, false, true⟩
    [Tok.identifier "x", Tok.r_paren] [Tok.r_paren]
    [Tok.l_brace, Tok.r_brace, Tok.eof]
    (some (ParsedPat.tuple 1)) (some (ParsedPat.tuple 0)) [] []
    rfl rfl⟩

end SwiftParse
